import Mathlib

/-!
# skybit-cli: the tool-dispatch gateway

A shallow embedding of `internal/tools`, `internal/mcp` and
`internal/broker/snaptrade`, with the properties of the gateway stated and
proved over it.

Conventions of the embedding.

* A Go `map[string]T` is an association list read by its first entry for a
  key (`GoMap.get`) and written by `GoMap.set`; a nil map reads like the empty
  one.
* A Go `any` is a `Value F`, where `F` stands for `float64`. The arithmetic of
  `float64` is not fixed: it is the class `Float64 F`, so a statement proved
  here holds for every arithmetic, the one of IEEE 754 included.
* A Go function with effects takes the state of the world it acts on and
  returns the new one. A handler is a function into a monad `m`, which is
  where its effects live: `StateM World` for the brokerage handlers, whose
  world holds the environment, the brokerage and the requests sent so far;
  `Option` where a handler may fail to return.
* Functions of the Go standard library (`encoding/json`, `net/http`, `fmt` on
  a `float64`) are parameters: their results are taken as given.
-/

namespace Skybit

/-! ## Go maps -/

/-- A Go `map[string]V`, as the list of its entries. -/
abbrev GoMap (V : Type) := List (String × V)

namespace GoMap

/-- The Go expression `v, ok := m[k]`: `none` when `k` is not a key. -/
def get {V : Type} (m : GoMap V) (k : String) : Option V :=
  match m with
  | [] => none
  | (k', v) :: rest => if k' = k then some v else get rest k

/-- The Go statement `m[k] = v`. -/
def set {V : Type} (m : GoMap V) (k : String) (v : V) : GoMap V :=
  match m with
  | [] => [(k, v)]
  | (k', v') :: rest => if k' = k then (k, v) :: rest else (k', v') :: set rest k v

/-- The keys of the map, each once. -/
def keys {V : Type} (m : GoMap V) : List String :=
  (m.map Prod.fst).dedup

/-- The entries `for k, v := range m` visits: each key once, with the value
the map holds for it. Go leaves the order open; the list fixes one. -/
def range {V : Type} (m : GoMap V) : List (String × V) :=
  (keys m).filterMap fun k => (get m k).map fun v => (k, v)

end GoMap

/-! ## Dynamic values -/

/-- The arithmetic of Go's `float64` that the handlers use. `lit m e` is the
constant written `m / 10^e` in the source, such as `1.47 = lit 147 2`. -/
class Float64 (F : Type) where
  zero : F
  add : F → F → F
  mul : F → F → F
  lit : Nat → Nat → F

/-- A Go value of type `any`, as a handler receives or returns it. `num` is a
`float64` (every JSON number decodes to one), `int` a Go `int`. -/
inductive Value (F : Type) where
  | nil : Value F
  | bool : Bool → Value F
  | int : Int → Value F
  | num : F → Value F
  | str : String → Value F
  | arr : List (Value F) → Value F
  | obj : List (String × Value F) → Value F

namespace Value

/-- The type assertion `v.(string)` on the result of a map read, with Go's
zero value `""` when it fails. -/
def asString {F : Type} : Option (Value F) → String
  | some (str s) => s
  | _ => ""

/-- The type assertion `v, ok := x.(float64)`. -/
def asFloat? {F : Type} : Option (Value F) → Option F
  | some (num f) => some f
  | _ => none

/-- The type assertion `v, _ := x.(float64)`, with the zero value when it fails. -/
def asFloat {F : Type} [Float64 F] (x : Option (Value F)) : F :=
  (asFloat? x).getD Float64.zero

/-- The type assertion `v, ok := x.(string)`. -/
def asString? {F : Type} : Option (Value F) → Option String
  | some (str s) => some s
  | _ => none

/-- The type assertion `m, _ := x.(map[string]any)`; the nil map it gives on
failure reads like the empty map. -/
def asMap {F : Type} : Option (Value F) → GoMap (Value F)
  | some (obj m) => m
  | _ => []

/-- The type assertion `xs, ok := x.([]any)`. -/
def asSlice? {F : Type} : Option (Value F) → Option (List (Value F))
  | some (arr xs) => some xs
  | _ => none

end Value

/-! ## `fmt.Sprintf("%v", x)` -/

mutual
/-- Go: `fmt.Sprintf("%v", x)` for `x` of type `any`. The digits fmt prints
for a `float64` are the parameter `fmtFloat`; a map prints its entries in the
order of their keys. -/
def Sprint {F : Type} (fmtFloat : F → String) : Value F → String
  | Value.nil => "<nil>"
  | Value.bool b => if b then "true" else "false"
  | Value.int i => toString i
  | Value.num f => fmtFloat f
  | Value.str s => s
  | Value.arr xs => "[" ++ " ".intercalate (SprintList fmtFloat xs) ++ "]"
  | Value.obj m =>
    "map[" ++ " ".intercalate
      ((((SprintEntries fmtFloat m).range).insertionSort fun a b => a.1 ≤ b.1).map
        fun kv => kv.1 ++ ":" ++ kv.2) ++ "]"
/-- The elements of a slice, each printed by `Sprint`. -/
def SprintList {F : Type} (fmtFloat : F → String) : List (Value F) → List String
  | [] => []
  | x :: xs => Sprint fmtFloat x :: SprintList fmtFloat xs
/-- The entries of a map, each value printed by `Sprint`. -/
def SprintEntries {F : Type} (fmtFloat : F → String) :
    List (String × Value F) → GoMap String
  | [] => []
  | (k, v) :: rest => (k, Sprint fmtFloat v) :: SprintEntries fmtFloat rest
end

/-- Go: `fmt.Sprintf("%v", m[k])`: a key that is absent reads as the nil
interface. -/
def SprintField {F : Type} (fmtFloat : F → String) (x : Option (Value F)) : String :=
  Sprint fmtFloat (x.getD Value.nil)

/-! ## Errors and handlers -/

/-- A Go `error`, by its message (`err.Error()`). -/
structure GoError where
  msg : String
deriving DecidableEq, Repr

/-- The Go call `fmt.Errorf(msg)` on a message already formatted. -/
def Errorf (msg : String) : GoError := ⟨msg⟩

/-- A `context.Context`: what the gateway and the handlers use of it is its
deadline, in nanoseconds of the clock, when it has one. -/
structure Context where
  deadline : Option Nat
deriving DecidableEq, Repr

/-- The pair `(any, error)` a handler returns. -/
abbrev Outcome (F : Type) := Value F × Option GoError

/-- Tool adapter: `type Handler func(ctx context.Context, args map[string]any) (any, error)`. -/
abbrev Handler (m : Type → Type) (F : Type) :=
  Context → GoMap (Value F) → m (Outcome F)

/-! ## The registry (`internal/tools/registry.go`) -/

/-- Registry maps tool names to handlers. -/
structure Registry (m : Type → Type) (F : Type) where
  handlers : GoMap (Handler m F)

namespace Registry

/-- Go: `NewRegistry`. -/
def NewRegistry {m : Type → Type} {F : Type} : Registry m F :=
  ⟨[]⟩

/-- Go: `(r *Registry) Register`. -/
def Register {m : Type → Type} {F : Type} (r : Registry m F) (name : String)
    (h : Handler m F) : Registry m F :=
  ⟨r.handlers.set name h⟩

/-- Go: `(r *Registry) Names`. -/
def Names {m : Type → Type} {F : Type} (r : Registry m F) : List String :=
  (r.handlers.range).map Prod.fst

/-- Go: `(r *Registry) Call`. -/
def Call {m : Type → Type} {F : Type} [Monad m] (r : Registry m F) (ctx : Context)
    (name : String) (args : GoMap (Value F)) : m (Outcome F) :=
  match r.handlers.get name with
  | none => pure (Value.nil, some (Errorf ("unknown tool: " ++ name)))
  | some h => h ctx args

/-- The registry after a sequence of `Register` calls on a new registry. -/
def registerAll {m : Type → Type} {F : Type} (regs : List (String × Handler m F)) :
    Registry m F :=
  regs.foldl (fun r p => r.Register p.1 p.2) NewRegistry

end Registry

/-- The handler most recently registered under `name` in a sequence of
`Register` calls. -/
def lastRegistered {m : Type → Type} {F : Type} (regs : List (String × Handler m F))
    (name : String) : Option (Handler m F) :=
  (regs.reverse.find? fun p => p.1 = name).map Prod.snd

/-! ## The gateway (`internal/mcp/server.go`) -/

/-- Go: `type request struct`, the decoded tool-call envelope. -/
structure request (F : Type) where
  Name : String
  Args : GoMap (Value F)

/-- Go: `type response struct`. -/
structure response (F : Type) where
  OK : Bool
  Error : String
  Data : Value F

/-- The JSON object `json.NewEncoder(w).Encode(v)` writes for a `response`,
as its fields: `ok` always; `error` and `data` carry `omitempty`, which drops
the empty string and the nil interface. -/
def response.encode {F : Type} (v : response F) : GoMap (Value F) :=
  [("ok", Value.bool v.OK)]
    ++ (if v.Error = "" then [] else [("error", Value.str v.Error)])
    ++ (match v.Data with
        | Value.nil => []
        | d => [("data", d)])

/-- What the gateway writes back: a status code and, when it writes one, the
JSON object of the body. -/
structure HttpOut (F : Type) where
  status : Nat
  body : Option (GoMap (Value F))

/-- Whether `json.NewEncoder(w).Encode(v)` succeeds on a `response`: strings
and booleans always encode, so it is up to the data, which `jsonOk` decides
(`json` rejects, for one, a `float64` that is infinite or not a number). -/
def response.encodes {F : Type} (jsonOk : Value F → Bool) (v : response F) : Bool :=
  match v.Data with
  | Value.nil => true
  | d => jsonOk d

/-- Go: `writeJSON`. The status goes out first; the body is written only
when the encoding succeeds. -/
def writeJSON {F : Type} (jsonOk : Value F → Bool) (code : Nat) (v : response F) : HttpOut F :=
  ⟨code, if v.encodes jsonOk then some v.encode else none⟩

/-- An inbound HTTP request on `/mcp`: its method, its context, and what
`json.NewDecoder(r.Body).Decode(&req)` gives (`none` when it fails). -/
structure HttpIn (F : Type) where
  method : String
  ctx : Context
  body : Option (request F)

/-- Go: `10*time.Second`, in nanoseconds. -/
def callTimeout : Nat := 10 * 1000000000

/-- The envelope written for what `reg.Call` returned (the tail of the
handler function in `NewMux`). -/
def respond {F : Type} (jsonOk : Value F → Bool) (out : Outcome F) : HttpOut F :=
  match out.2 with
  | some err => writeJSON jsonOk 200 ⟨false, err.msg, Value.nil⟩
  | none => writeJSON jsonOk 200 ⟨true, "", out.1⟩

/-- Go: the handler function `NewMux` mounts on `/mcp`. The context it hands
to `reg.Call` is what the source obtains from `time.WithTimeout(ctx,
10*time.Second)`, a function that neither this repository nor Go's `time`
package declares; it is the parameter `withTimeout`, of which nothing is
assumed. -/
def NewMux {m : Type → Type} {F : Type} [Monad m] (jsonOk : Value F → Bool)
    (withTimeout : Context → Nat → Context) (reg : Registry m F) (r : HttpIn F) :
    m (HttpOut F) :=
  if r.method ≠ "POST" then
    pure ⟨405, none⟩
  else
    match r.body with
    | none => pure (writeJSON jsonOk 400 ⟨false, "invalid json", Value.nil⟩)
    | some req =>
      reg.Call (withTimeout r.ctx callTimeout) req.Name req.Args >>= fun out =>
        pure (respond jsonOk out)

/-! ## Local trade handlers (`internal/tools/trade.go`) -/

/-- One turn of the loop of `TradePreview` on the element `oi` of `orders`:
the value of the order and the order written to the output. -/
def previewOrder {F : Type} [Float64 F] (oi : Value F) : F × GoMap (Value F) :=
  let o := Value.asMap (some oi)
  let qty := Value.asFloat (o.get "qty")
  let limit := Value.asFloat (o.get "limit_price")
  let val := Float64.mul qty limit
  let oo := o.range.foldl (fun (oo : GoMap (Value F)) kv => oo.set kv.1 kv.2) []
  (val, oo.set "estimated_total" (Value.num val))

/-- The loop of `TradePreview`: the running `total` and `outOrders`. -/
def previewLoop {F : Type} [Float64 F] (ordersAny : List (Value F)) :
    F × List (GoMap (Value F)) :=
  ordersAny.foldl
    (fun acc oi => (Float64.add acc.1 (previewOrder oi).1, acc.2 ++ [(previewOrder oi).2]))
    (Float64.zero, [])

/-- Go: `TradePreview`, compute simple totals and fake fees. -/
def TradePreview {m : Type → Type} {F : Type} [Monad m] [Float64 F] : Handler m F :=
  fun _ args =>
    let ordersAny := (Value.asSlice? (args.get "orders")).getD []
    let total := (previewLoop ordersAny).1
    let outOrders := (previewLoop ordersAny).2
    let impact : GoMap (Value F) :=
      [("total_value", Value.num total),
       ("commission", Value.num (Float64.lit 100 2)),
       ("fees", Value.arr
          [Value.obj [("type", Value.str "SEC"), ("amount", Value.num (Float64.lit 46 2))],
           Value.obj [("type", Value.str "TAF"), ("amount", Value.num (Float64.lit 1 2))]]),
       ("total_cost", Value.num (Float64.add total (Float64.lit 147 2))),
       ("slippage_bps", Value.int 0),
       ("pnl_impact", Value.int 0)]
    pure (Value.obj [("orders", Value.arr (outOrders.map Value.obj)),
                     ("impact", Value.obj impact)], none)

/-- Go: `TradeCancel`. -/
def TradeCancel {m : Type → Type} {F : Type} [Monad m] : Handler m F :=
  fun _ _ => pure (Value.obj [("status", Value.str "CANCELED")], none)

/-- Go: `TradeCancelAll`. -/
def TradeCancelAll {m : Type → Type} {F : Type} [Monad m] : Handler m F :=
  fun _ _ => pure (Value.obj [("status", Value.str "CANCELED_ALL")], none)

/-- Go: `TradePlaceOrder`, stub accepted. `nanos` is the reading
`time.Now().UnixNano()` the call takes, an `int64`, which `%d` prints in
decimal; `stamp` is the reading `time.Now().UTC().Format(time.RFC3339)` it
takes next. A nil `order` map is held in the echo as the empty map. -/
def TradePlaceOrder {m : Type → Type} {F : Type} [Monad m] (nanos : Int) (stamp : String) :
    Handler m F :=
  fun _ args =>
    let order := Value.asMap (args.get "order")
    pure (Value.obj [("broker_order_id", Value.str ("SNAP-" ++ toString nanos)),
                     ("status", Value.str "ACCEPTED"),
                     ("submitted_at", Value.str stamp),
                     ("echo", Value.obj order)], none)

/-- The field `k` of a result that is a map. -/
def resultField {F : Type} (out : Outcome F) (k : String) : Option (Value F) :=
  (Value.asMap (some out.1)).get k

/-- The `impact` map in the result of `TradePreview`. -/
def impactOf {F : Type} (out : Outcome F) : GoMap (Value F) :=
  Value.asMap (resultField out "impact")

/-- The orders in the result of `TradePreview`. -/
def previewOrdersOf {F : Type} (out : Outcome F) : List (Value F) :=
  (Value.asSlice? ((Value.asMap (some out.1)).get "orders")).getD []

/-- Exact arithmetic on the rationals, for evaluating the handlers on
concrete orders. It agrees with `float64` as long as every number met is one
`float64` represents exactly. -/
instance exactFloat64 : Float64 ℚ where
  zero := 0
  add := fun a b => a + b
  mul := fun a b => a * b
  lit := fun m e => (m : ℚ) / (10 : ℚ) ^ e

/-! ## Market data (`internal/tools/data.go`) -/

/-- The quote `DataSnapshot` writes for a symbol; `now` is the reading
`time.Now().UTC().Format(time.RFC3339)`. -/
def stubQuote {F : Type} [Float64 F] (now : String) : Value F :=
  Value.obj [("bid", Value.num (Float64.lit 22505 2)),
             ("ask", Value.num (Float64.lit 22515 2)),
             ("mid", Value.num (Float64.lit 22510 2)),
             ("ts", Value.str now)]

/-- The loop of `DataSnapshot` over the elements of `symbols`. -/
def snapshotLoop {F : Type} [Float64 F] (now : String) (symsAny : List (Value F)) :
    GoMap (Value F) :=
  symsAny.foldl
    (fun (quotes : GoMap (Value F)) s =>
      let sym := Value.asString (some s)
      if sym = "" then quotes else quotes.set sym (stubQuote now))
    []

/-- Go: `DataSnapshot`, returns simple stub quotes for now. -/
def DataSnapshot {m : Type → Type} {F : Type} [Monad m] [Float64 F] (now : String) :
    Handler m F :=
  fun _ args =>
    match Value.asSlice? (args.get "symbols") with
    | none => pure (Value.obj [("quotes", Value.obj [])], none)
    | some symsAny => pure (Value.obj [("quotes", Value.obj (snapshotLoop now symsAny))], none)

/-- The `quotes` map in the result of `DataSnapshot`. -/
def quotesOf {F : Type} (out : Outcome F) : GoMap (Value F) :=
  Value.asMap (resultField out "quotes")

/-! ## The brokerage client (`internal/broker/snaptrade`) -/

namespace snaptrade

/-- Go: `type Config struct`. -/
structure Config where
  ClientID : String
  ClientSecret : String
  Env : String
deriving DecidableEq, Repr

/-- Go: `LoadConfig`, reading the environment through `getenv` (`os.Getenv`,
which gives `""` for a variable that is not set). -/
def LoadConfig (getenv : String → String) : Except GoError Config :=
  let id := getenv "SNAPTRADE_CLIENT_ID"
  let sec := getenv "SNAPTRADE_CLIENT_SECRET"
  let env := getenv "SNAPTRADE_ENV"
  let env := if env = "" then "sandbox" else env
  if id = "" ∨ sec = "" then
    Except.error (Errorf "missing SNAPTRADE_CLIENT_ID/SECRET envs")
  else
    Except.ok ⟨id, sec, env⟩

/-- Go: `type Account struct`. -/
structure Account where
  ID : String
  Name : String
deriving DecidableEq, Repr

/-- Go: `type Position struct`. -/
structure Position (F : Type) where
  Symbol : String
  Quantity : F
  AvgPrice : F

/-- Go: `type PlaceOrderRequest struct`. -/
structure PlaceOrderRequest (F : Type) where
  Symbol : String
  Side : String
  Quantity : F
  /-- The field `Type` of the Go struct. -/
  OrderType : String
  LimitPrice : F
  TIF : String
  ClientID : String

/-- Go: `type PlaceOrderResponse struct`. -/
structure PlaceOrderResponse where
  BrokerOrderID : String
  Status : String
deriving DecidableEq, Repr

/-- An HTTP request as the client hands it to `c.http.Do`. -/
structure HttpRequest where
  ctx : Context
  method : String
  url : String
  headers : List (String × String)
  body : String
deriving DecidableEq, Repr

/-- What `c.http.Do(req)` gives: an error (no connection, the context expired
or was cancelled, ...) or a response with its status code and body. -/
inductive HttpResult where
  | failed (err : GoError)
  | response (status : Nat) (body : String)
deriving DecidableEq, Repr

/-- The functions of the Go standard library the client and the brokerage
handlers call, whose results the embedding takes as given. -/
structure Lib (F : Type) where
  /-- The function `json.Marshal` on a `PlaceOrderRequest`. -/
  marshalOrder : PlaceOrderRequest F → Except GoError String
  /-- The error of `http.NewRequestWithContext` for a method and a URL, if any. -/
  newRequest : String → String → Option GoError
  /-- The call `json.NewDecoder(body).Decode(out)` for `out` of type `*[]Account`. -/
  decodeAccounts : String → Except GoError (List Account)
  /-- The same for `*[]Position`. -/
  decodePositions : String → Except GoError (List (Position F))
  /-- The same for `*PlaceOrderResponse`. -/
  decodeOrder : String → Except GoError PlaceOrderResponse
  /-- The digits `fmt` prints for a `float64` under `%v`. -/
  fmtFloat : F → String

/-- The world a brokerage-backed handler acts on: the process environment, the
brokerage (its answer to a request, given the requests it was sent before), and
the requests sent so far. -/
structure World where
  getenv : String → String
  remote : List HttpRequest → HttpRequest → HttpResult
  sent : List HttpRequest

/-- Go: `type Client struct`; the `http.Client` it holds answers through
`World.remote`. -/
structure Client where
  cfg : Config
  base : String
deriving DecidableEq, Repr

/-- Go: `New`. -/
def New (cfg : Config) : Client :=
  ⟨cfg, if cfg.Env = "production" then "https://api.snaptrade.com/api/v1"
        else "https://api.sandbox.snaptrade.com/api/v1"⟩

/-- The request `do` builds for a method, a path and a marshalled body. -/
def Client.request (c : Client) (ctx : Context) (method path buf : String) : HttpRequest :=
  { ctx := ctx, method := method, url := c.base ++ path,
    headers := [("Content-Type", "application/json"),
                ("X-Snaptrade-Client-Id", c.cfg.ClientID),
                ("X-Snaptrade-Client-Secret", c.cfg.ClientSecret)],
    body := buf }

/-- Go: `(c *Client) do`. `body` is `none` for a nil body and otherwise what
`json.Marshal(body)` gave; `decode` is `none` for a nil `out` and otherwise the
decoder into `out`. Returns the value `out` points to after the call and the
error. When decoding fails the partly filled `out` is left as it was: no
caller reads it. -/
def Client.do {F α : Type} (lib : Lib F) (c : Client) (ctx : Context) (method path : String)
    (body : Option (Except GoError String)) (out : α)
    (decode : Option (String → Except GoError α)) (w : World) :
    (α × Option GoError) × World :=
  match (match body with
         | some b => b
         | none => Except.ok "") with
  | Except.error err => ((out, some err), w)
  | Except.ok buf =>
    match lib.newRequest method (c.base ++ path) with
    | some err => ((out, some err), w)
    | none =>
      let req := c.request ctx method path buf
      let w' : World := { w with sent := w.sent ++ [req] }
      match w.remote w.sent req with
      | HttpResult.failed err => ((out, some err), w')
      | HttpResult.response status rbody =>
        if status / 100 ≠ 2 then
          ((out, some (Errorf ("snaptrade http " ++ toString status))), w')
        else
          match decode with
          | none => ((out, none), w')
          | some d =>
            match d rbody with
            | Except.ok a => ((a, none), w')
            | Except.error err => ((out, some err), w')

/-- Go: `(c *Client) ListAccounts`. -/
def Client.ListAccounts {F : Type} (lib : Lib F) (c : Client) (ctx : Context) (w : World) :
    (List Account × Option GoError) × World :=
  c.do lib ctx "GET" "/accounts" none [] (some lib.decodeAccounts) w

/-- Go: `(c *Client) GetPositions`. -/
def Client.GetPositions {F : Type} (lib : Lib F) (c : Client) (ctx : Context) (accountID : String)
    (w : World) : (List (Position F) × Option GoError) × World :=
  c.do lib ctx "GET" ("/accounts/" ++ accountID ++ "/positions") none []
    (some lib.decodePositions) w

/-- Go: `(c *Client) PlaceOrder`. -/
def Client.PlaceOrder {F : Type} (lib : Lib F) (c : Client) (ctx : Context) (accountID : String)
    (req : PlaceOrderRequest F) (w : World) : (PlaceOrderResponse × Option GoError) × World :=
  c.do lib ctx "POST" ("/accounts/" ++ accountID ++ "/orders") (some (lib.marshalOrder req))
    ⟨"", ""⟩ (some lib.decodeOrder) w

/-- Go: `(c *Client) CancelOrder`. -/
def Client.CancelOrder {F : Type} (lib : Lib F) (c : Client) (ctx : Context)
    (accountID brokerOrderID : String) (w : World) : Option GoError × World :=
  let r := c.do lib ctx "POST"
    ("/accounts/" ++ accountID ++ "/orders/" ++ brokerOrderID ++ "/cancel") none () none w
  (r.1.2, r.2)

/-- Go: `(c *Client) CancelAll`. -/
def Client.CancelAll {F : Type} (lib : Lib F) (c : Client) (ctx : Context) (accountID : String)
    (w : World) : Option GoError × World :=
  let r := c.do lib ctx "POST" ("/accounts/" ++ accountID ++ "/orders/cancel_all") none () none w
  (r.1.2, r.2)

end snaptrade

/-! ## Brokerage-backed handlers (`internal/tools/snaptrade_tools.go`) -/

open snaptrade in
/-- An `Account` held in an `any`, as the object its JSON tags give. -/
def accountValue {F : Type} (a : Account) : Value F :=
  Value.obj [("id", Value.str a.ID), ("name", Value.str a.Name)]

open snaptrade in
/-- A `Position` held in an `any`, as the object its JSON tags give. -/
def positionValue {F : Type} (p : Position F) : Value F :=
  Value.obj [("symbol", Value.str p.Symbol), ("quantity", Value.num p.Quantity),
             ("avg_price", Value.num p.AvgPrice)]

open snaptrade in
/-- Go: `getDefaultAccountID`, optional account selection from env. -/
def getDefaultAccountID {F : Type} (lib : Lib F) (ctx : Context) (c : Client) (w : World) :
    (String × Option GoError) × World :=
  let v := w.getenv "SNAPTRADE_ACCOUNT_ID"
  if v ≠ "" then
    ((v, none), w)
  else
    match c.ListAccounts lib ctx w with
    | ((_, some err), w1) => (("", some err), w1)
    | ((accts, none), w1) =>
      match accts with
      | [] => (("", some (Errorf "no accounts linked; run brokers connect")), w1)
      | a :: _ => ((a.ID, none), w1)

open snaptrade in
/-- Go: `SnapTradeAccounts`. -/
def SnapTradeAccounts {F : Type} (lib : Lib F) : Handler (StateM World) F :=
  fun ctx _ w =>
    match LoadConfig w.getenv with
    | Except.error err => ((Value.nil, some err), w)
    | Except.ok cfg =>
      let cli := New cfg
      match cli.ListAccounts lib ctx w with
      | ((_, some err), w1) => ((Value.nil, some err), w1)
      | ((accts, none), w1) =>
        ((Value.obj [("accounts", Value.arr (accts.map accountValue))], none), w1)

open snaptrade in
/-- Go: `SnapTradePositions`. -/
def SnapTradePositions {F : Type} (lib : Lib F) : Handler (StateM World) F :=
  fun ctx args w =>
    match LoadConfig w.getenv with
    | Except.error err => ((Value.nil, some err), w)
    | Except.ok cfg =>
      let cli := New cfg
      let acctID := Value.asString (args.get "account_id")
      match (if acctID = "" then getDefaultAccountID lib ctx cli w
             else ((acctID, none), w)) with
      | ((_, some err), w1) => ((Value.nil, some err), w1)
      | ((acctID, none), w1) =>
        match cli.GetPositions lib ctx acctID w1 with
        | ((_, some err), w2) => ((Value.nil, some err), w2)
        | ((pos, none), w2) =>
          ((Value.obj [("positions", Value.arr (pos.map positionValue))], none), w2)

open snaptrade in
/-- The `PlaceOrderRequest` that `SnapTradePlaceOrder` builds from the `order`
argument. -/
def orderRequest {F : Type} [Float64 F] (lib : Lib F) (order : GoMap (Value F)) :
    PlaceOrderRequest F :=
  { Symbol := SprintField lib.fmtFloat (order.get "symbol"),
    Side := SprintField lib.fmtFloat (order.get "side"),
    TIF := SprintField lib.fmtFloat (order.get "tif"),
    ClientID := SprintField lib.fmtFloat (order.get "client_id"),
    Quantity := match Value.asFloat? (order.get "qty") with
                | some v => v
                | none => Float64.zero,
    LimitPrice := match Value.asFloat? (order.get "limit_price") with
                  | some v => v
                  | none => Float64.zero,
    OrderType := match Value.asString? (order.get "type") with
                 | some v => v
                 | none => "" }

open snaptrade in
/-- Go: `SnapTradePlaceOrder`. -/
def SnapTradePlaceOrder {F : Type} [Float64 F] (lib : Lib F) : Handler (StateM World) F :=
  fun ctx args w =>
    match LoadConfig w.getenv with
    | Except.error err => ((Value.nil, some err), w)
    | Except.ok cfg =>
      let cli := New cfg
      let acctID := Value.asString (args.get "account_id")
      match (if acctID = "" then getDefaultAccountID lib ctx cli w
             else ((acctID, none), w)) with
      | ((_, some err), w1) => ((Value.nil, some err), w1)
      | ((acctID, none), w1) =>
        let order := Value.asMap (args.get "order")
        let req := orderRequest lib order
        match cli.PlaceOrder lib ctx acctID req w1 with
        | ((_, some err), w2) => ((Value.nil, some err), w2)
        | ((out, none), w2) =>
          ((Value.obj [("broker_order_id", Value.str out.BrokerOrderID),
                       ("status", Value.str out.Status)], none), w2)

open snaptrade in
/-- Go: `SnapTradeCancel`. -/
def SnapTradeCancel {F : Type} (lib : Lib F) : Handler (StateM World) F :=
  fun ctx args w =>
    match LoadConfig w.getenv with
    | Except.error err => ((Value.nil, some err), w)
    | Except.ok cfg =>
      let cli := New cfg
      let acctID := Value.asString (args.get "account_id")
      match (if acctID = "" then getDefaultAccountID lib ctx cli w
             else ((acctID, none), w)) with
      | ((_, some err), w1) => ((Value.nil, some err), w1)
      | ((acctID, none), w1) =>
        let orderID := Value.asString (args.get "broker_order_id")
        if orderID = "" then
          ((Value.nil, some (Errorf "broker_order_id required")), w1)
        else
          match cli.CancelOrder lib ctx acctID orderID w1 with
          | (some err, w2) => ((Value.nil, some err), w2)
          | (none, w2) => ((Value.obj [("status", Value.str "CANCELED")], none), w2)

open snaptrade in
/-- Go: `SnapTradeCancelAll`. -/
def SnapTradeCancelAll {F : Type} (lib : Lib F) : Handler (StateM World) F :=
  fun ctx args w =>
    match LoadConfig w.getenv with
    | Except.error err => ((Value.nil, some err), w)
    | Except.ok cfg =>
      let cli := New cfg
      let acctID := Value.asString (args.get "account_id")
      match (if acctID = "" then getDefaultAccountID lib ctx cli w
             else ((acctID, none), w)) with
      | ((_, some err), w1) => ((Value.nil, some err), w1)
      | ((acctID, none), w1) =>
        match cli.CancelAll lib ctx acctID w1 with
        | (some err, w2) => ((Value.nil, some err), w2)
        | (none, w2) => ((Value.obj [("status", Value.str "CANCELED_ALL")], none), w2)

/-! ### What the spec says of the brokerage handlers -/

/-- The account the spec resolves: the explicit `account_id` argument when it
is a non-empty string, else the environment override when it is non-empty,
else the id of the first account listed; none when there is no such account. -/
def resolveAccountSpec {F : Type} (explicit : Option (Value F)) (override : String)
    (listed : List snaptrade.Account) : Option String :=
  match explicit with
  | some (Value.str s) =>
    if s ≠ "" then some s
    else if override ≠ "" then some override
    else listed.head?.map fun a => a.ID
  | _ =>
    if override ≠ "" then some override
    else listed.head?.map fun a => a.ID

/-- A handler that acts on one account, with what the spec lets one expect of
its request: the method, the path below `/accounts/<id>`, the marshalled body
(none for a request without one), and whether the handler's own check of its
arguments lets the request go out. -/
structure AccountOp (F : Type) where
  handler : Handler (StateM snaptrade.World) F
  method : String
  path : GoMap (Value F) → String
  body : GoMap (Value F) → Option (Except GoError String)
  ready : GoMap (Value F) → Bool

/-- The four handlers that act on one account: positions, place order, cancel
(which asks for a non-empty `broker_order_id`) and cancel-all. -/
def accountOps {F : Type} [Float64 F] (lib : snaptrade.Lib F) : List (AccountOp F) :=
  [{ handler := SnapTradePositions lib, method := "GET", path := fun _ => "/positions",
     body := fun _ => none, ready := fun _ => true },
   { handler := SnapTradePlaceOrder lib, method := "POST", path := fun _ => "/orders",
     body := fun args =>
       some (lib.marshalOrder (orderRequest lib (Value.asMap (args.get "order")))),
     ready := fun _ => true },
   { handler := SnapTradeCancel lib, method := "POST",
     path := fun args =>
       "/orders/" ++ Value.asString (args.get "broker_order_id") ++ "/cancel",
     body := fun _ => none,
     ready := fun args => decide (Value.asString (args.get "broker_order_id") ≠ "") },
   { handler := SnapTradeCancelAll lib, method := "POST",
     path := fun _ => "/orders/cancel_all", body := fun _ => none, ready := fun _ => true }]

/-- The brokerage-backed handlers, each with the test that the body answering
its own request decodes (cancel and cancel-all expect no body). -/
def brokerageHandlers {F : Type} [Float64 F] (lib : snaptrade.Lib F) :
    List (Handler (StateM snaptrade.World) F × (String → Bool)) :=
  [(SnapTradeAccounts lib, fun b => (lib.decodeAccounts b).toBool),
   (SnapTradePositions lib, fun b => (lib.decodePositions b).toBool),
   (SnapTradePlaceOrder lib, fun b => (lib.decodeOrder b).toBool),
   (SnapTradeCancel lib, fun _ => true),
   (SnapTradeCancelAll lib, fun _ => true)]

/-- A brokerage request succeeds when the transport gives a response, its
status is between 200 and 299, and its body, where one is expected, decodes
(`decodes`). -/
def snaptrade.HttpResult.succeeded (decodes : String → Bool) : snaptrade.HttpResult → Bool
  | snaptrade.HttpResult.failed _ => false
  | snaptrade.HttpResult.response status body =>
    decide (200 ≤ status ∧ status ≤ 299) && decodes body

/-- The account step every account handler starts with: the `account_id`
argument, or `getDefaultAccountID` when it is not a non-empty string. -/
def resolveStep {F : Type} (lib : snaptrade.Lib F) (ctx : Context) (cli : snaptrade.Client)
    (args : GoMap (Value F)) (w : snaptrade.World) :
    (String × Option GoError) × snaptrade.World :=
  if Value.asString (args.get "account_id") = "" then getDefaultAccountID lib ctx cli w
  else ((Value.asString (args.get "account_id"), none), w)

open snaptrade in
/-- The frame the account handlers share: the account step, then the rest of
the handler on the account id found, or the error of the step. -/
def withAccount {F : Type} (lib : Lib F) (ctx : Context) (cli : Client)
    (args : GoMap (Value F)) (w : World) (tail : String → World → Outcome F × World) :
    Outcome F × World :=
  match resolveStep lib ctx cli args w with
  | ((_, some err), w1) => ((Value.nil, some err), w1)
  | ((acctID, none), w1) => tail acctID w1

open snaptrade in
/-- The rest of `SnapTradePositions` once the account id is known. -/
def positionsTail {F : Type} (lib : Lib F) (ctx : Context) (cli : Client) (acctID : String)
    (w1 : World) : Outcome F × World :=
  match cli.GetPositions lib ctx acctID w1 with
  | ((_, some err), w2) => ((Value.nil, some err), w2)
  | ((pos, none), w2) =>
    ((Value.obj [("positions", Value.arr (pos.map positionValue))], none), w2)

open snaptrade in
/-- The rest of `SnapTradePlaceOrder` once the account id is known. -/
def placeOrderTail {F : Type} [Float64 F] (lib : Lib F) (ctx : Context) (cli : Client)
    (args : GoMap (Value F)) (acctID : String) (w1 : World) : Outcome F × World :=
  match cli.PlaceOrder lib ctx acctID (orderRequest lib (Value.asMap (args.get "order"))) w1 with
  | ((_, some err), w2) => ((Value.nil, some err), w2)
  | ((out, none), w2) =>
    ((Value.obj [("broker_order_id", Value.str out.BrokerOrderID),
                 ("status", Value.str out.Status)], none), w2)

open snaptrade in
/-- The rest of `SnapTradeCancel` once the account id is known. -/
def cancelTail {F : Type} (lib : Lib F) (ctx : Context) (cli : Client)
    (args : GoMap (Value F)) (acctID : String) (w1 : World) : Outcome F × World :=
  if Value.asString (args.get "broker_order_id") = "" then
    ((Value.nil, some (Errorf "broker_order_id required")), w1)
  else
    match cli.CancelOrder lib ctx acctID (Value.asString (args.get "broker_order_id")) w1 with
    | (some err, w2) => ((Value.nil, some err), w2)
    | (none, w2) => ((Value.obj [("status", Value.str "CANCELED")], none), w2)

open snaptrade in
/-- The rest of `SnapTradeCancelAll` once the account id is known. -/
def cancelAllTail {F : Type} (lib : Lib F) (ctx : Context) (cli : Client) (acctID : String)
    (w1 : World) : Outcome F × World :=
  match cli.CancelAll lib ctx acctID w1 with
  | (some err, w2) => ((Value.nil, some err), w2)
  | (none, w2) => ((Value.obj [("status", Value.str "CANCELED_ALL")], none), w2)

open snaptrade in
/-- What one brokerage operation, started on `w1`, leaves behind in `r`: the
environment and the brokerage untouched; no result beside an error; and
either nothing sent and an error, or the one request `req buf` sent, with no
error exactly when that request succeeded. -/
def OpTrace {F : Type} (r : Outcome F × World) (w1 : World) (req : String → HttpRequest)
    (body : Option (Except GoError String)) (decodes : String → Bool) : Prop :=
  r.2.getenv = w1.getenv ∧ r.2.remote = w1.remote
  ∧ (r.1.2 ≠ none → r.1.1 = Value.nil)
  ∧ ((r.2.sent = w1.sent ∧ r.1.2 ≠ none)
     ∨ ∃ buf, r.2.sent = w1.sent ++ [req buf]
        ∧ ((body = none ∧ buf = "") ∨ body = some (Except.ok buf))
        ∧ (r.1.2 = none ↔ (w1.remote w1.sent (req buf)).succeeded decodes = true))

/-- A stand-in for the library: accounts travel as `[]` or `[A1]`. -/
def stubLib : snaptrade.Lib ℚ where
  marshalOrder := fun r => Except.ok r.ClientID
  newRequest := fun _ _ => none
  decodeAccounts := fun b =>
    if b = "[]" then Except.ok []
    else if b = "[A1]" then Except.ok [⟨"A1", "Main"⟩]
    else Except.error (Errorf "invalid character")
  decodePositions := fun b =>
    if b = "[]" then Except.ok [] else Except.error (Errorf "invalid character")
  decodeOrder := fun b =>
    if b = "accepted" then Except.ok ⟨"B-1", "ACCEPTED"⟩
    else Except.error (Errorf "invalid character")
  fmtFloat := fun q => toString q.num ++ "/" ++ toString q.den

/-- A world with credentials configured, no account override, and a brokerage
that answers the listing with `accounts` and any other request with status
`status`. -/
def stubWorld (accounts : String) (status : Nat) : snaptrade.World where
  getenv := fun k =>
    if k = "SNAPTRADE_CLIENT_ID" then "cid"
    else if k = "SNAPTRADE_CLIENT_SECRET" then "secret"
    else ""
  remote := fun _ r =>
    if r.url = "https://api.sandbox.snaptrade.com/api/v1/accounts" then
      snaptrade.HttpResult.response 200 accounts
    else snaptrade.HttpResult.response status "[]"
  sent := []

/-- A world with credentials configured, no account override, and a brokerage
that answers every request with status 200 and the body `accepted`. -/
def acceptingWorld : snaptrade.World where
  getenv := fun k =>
    if k = "SNAPTRADE_CLIENT_ID" then "cid"
    else if k = "SNAPTRADE_CLIENT_SECRET" then "secret"
    else ""
  remote := fun _ _ => snaptrade.HttpResult.response 200 "accepted"
  sent := []

/-- The arguments of a placement on account `A7`: buy 10 AAPL, client id `c-1`. -/
def sampleOrderArgs : GoMap (Value ℚ) :=
  [("account_id", Value.str "A7"),
   ("order", Value.obj [("client_id", Value.str "c-1"), ("symbol", Value.str "AAPL"),
     ("side", Value.str "buy"), ("qty", Value.num 10), ("type", Value.str "market"),
     ("tif", Value.str "day")])]

/-- A world with credentials configured, no account override, and a brokerage
that answers every request with status 500. -/
def failingWorld : snaptrade.World where
  getenv := fun k =>
    if k = "SNAPTRADE_CLIENT_ID" then "cid"
    else if k = "SNAPTRADE_CLIENT_SECRET" then "secret"
    else ""
  remote := fun _ _ => snaptrade.HttpResult.response 500 ""
  sent := []

/-! ## Policy and audit (`internal/tools/policy_audit.go`) -/

/-- Go: `PolicyCheck`. -/
def PolicyCheck {m : Type → Type} {F : Type} [Monad m] : Handler m F :=
  fun _ _ => pure (Value.obj [("allowed", Value.bool true)], none)

/-- The file system as `AuditLog` meets it: the outcome of each operation it
performs, the clock, and the bytes of `~/.skybit/audit.jsonl`. -/
structure AuditFs where
  /-- The error of `os.MkdirAll`, if any. -/
  mkdirAll : Option GoError
  /-- The error of `os.OpenFile`, if any. -/
  openFile : Option GoError
  /-- The call `f.Write(b)`: how many of the bytes reach the file, and the error. -/
  write : String → Nat × Option GoError
  /-- The reading `time.Now().UTC().Format(time.RFC3339)`. -/
  now : String
  /-- The contents of the log. -/
  content : String

/-- The record `AuditLog` builds from its arguments. -/
def auditPayload {F : Type} (now : String) (args : GoMap (Value F)) : Value F :=
  Value.obj [("ts", Value.str now), ("event", (args.get "event").getD Value.nil),
             ("payload", (args.get "payload").getD Value.nil)]

/-- Go: `AuditLog`. `marshal` is `json.Marshal`: the bytes (none on an error)
and the error. -/
def AuditLog {F : Type} (marshal : Value F → String × Option GoError) :
    Handler (StateM AuditFs) F :=
  fun _ args fs =>
    match fs.openFile with
    | some _ => ((Value.obj [("persisted", Value.bool false)], none), fs)
    | none =>
      let payload := auditPayload fs.now args
      let b := (marshal payload).1
      let n := (fs.write (b ++ "\n")).1
      ((Value.obj [("persisted", Value.bool true)], none),
       { fs with content := fs.content ++ String.mk ((b ++ "\n").data.take n) })

/-- A stand-in for the function the source names `time.WithTimeout`: it hands
the context on as it is. -/
def stubWithTimeout : Context → Nat → Context :=
  fun ctx _ => ctx

/-- A handler that returns the nil result and no error. -/
def returnsNil : Handler Id ℚ :=
  fun _ _ => (Value.nil, none)

/-- A handler that never returns, in the monad `Option` where `none` is a
computation that does not end. -/
def blocksForever : Handler Option ℚ :=
  fun _ _ => none

/-- A handler that waits for its context to expire and then returns the
context's error; under a context without a deadline it never returns. -/
def waitsForDeadline : Handler Option ℚ :=
  fun ctx _ =>
    match ctx.deadline with
    | some _ => some (Value.nil, some (Errorf "context deadline exceeded"))
    | none => none

/-- A file system on which the log opens and every write fails with nothing
written. -/
def fullDisk : AuditFs where
  mkdirAll := none
  openFile := none
  write := fun _ => (0, some (Errorf "no space left on device"))
  now := "2025-01-01T00:00:00Z"
  content := ""

/-- A stand-in for `json.Marshal` on an audit record. -/
def stubMarshal : Value ℚ → String × Option GoError :=
  fun _ => ("record", none)

/-- The arguments of a preview of one order: 10 of AAPL at 5. -/
def sampleArgs : GoMap (Value ℚ) :=
  [("orders", Value.arr [Value.obj [("qty", Value.num 10), ("limit_price", Value.num 5),
    ("symbol", Value.str "AAPL")]])]

/-- The number a run of decimal digits writes, read from the left. -/
def decodeDigits (cs : List Char) : Nat :=
  cs.foldl (fun acc c => acc * 10 + (c.toNat - 48)) 0

/-! ## Theorems -/

/-- C1: calling a name that is not registered returns, in any monad and so
without any effect, the nil result together with an error whose message is
`unknown tool: ` followed by the requested name; no handler of the registry
takes part in the result. -/
theorem call_unregistered_not_found {m : Type → Type} {F : Type} [Monad m]
    (r : Registry m F) (ctx : Context) (name : String) (args : GoMap (Value F))
    (h : r.handlers.get name = none) :
    r.Call ctx name args = pure (Value.nil, some (Errorf ("unknown tool: " ++ name))) := by
  unfold Registry.Call
  rw [h]

/-- The witness of C1: on a registry holding one tool, the name `nope` is not
found. -/
theorem call_unregistered_not_found_witness :
    (Registry.registerAll
        [("policy.check", (PolicyCheck : Handler Id ℚ))]).handlers.get "nope" = none
    ∧ (Registry.registerAll [("policy.check", (PolicyCheck : Handler Id ℚ))]).Call
        ⟨none⟩ "nope" []
      = pure (Value.nil, some (Errorf ("unknown tool: " ++ "nope"))) :=
  ⟨rfl, call_unregistered_not_found _ ⟨none⟩ "nope" [] rfl⟩

theorem GoMap.get_set_self {V : Type} (m : GoMap V) (k : String) (v : V) :
    (m.set k v).get k = some v := by
  induction m with
  | nil => simp [GoMap.set, GoMap.get]
  | cons p rest ih =>
    obtain ⟨k', v'⟩ := p
    by_cases hk : k' = k
    · simp [GoMap.set, GoMap.get, hk]
    · simp [GoMap.set, GoMap.get, hk, ih]

theorem GoMap.get_set_other {V : Type} (m : GoMap V) (k k' : String) (v : V)
    (hne : k ≠ k') : (m.set k v).get k' = m.get k' := by
  induction m with
  | nil => simp [GoMap.set, GoMap.get, hne]
  | cons p rest ih =>
    obtain ⟨k₀, v₀⟩ := p
    by_cases hk : k₀ = k
    · subst hk
      simp [GoMap.set, GoMap.get, hne]
    · by_cases hk' : k₀ = k'
      · subst hk'
        simp [GoMap.set, GoMap.get, hk]
      · simp [GoMap.set, GoMap.get, hk, hk', ih]

/-- Reading a name after a run of `Register` calls gives the handler the run
registered last under it, or what was bound before the run. -/
theorem Registry.get_foldl_Register {m : Type → Type} {F : Type}
    (regs : List (String × Handler m F)) (r : Registry m F) (name : String) :
    (regs.foldl (fun r p => r.Register p.1 p.2) r).handlers.get name
      = (lastRegistered regs name).or (r.handlers.get name) := by
  induction regs generalizing r with
  | nil => simp [lastRegistered]
  | cons p rest ih =>
    obtain ⟨k, h⟩ := p
    rw [List.foldl_cons, ih]
    by_cases hp : k = name
    · subst hp
      cases hrest : rest.reverse.find? (fun q => q.1 = k) <;>
        simp [lastRegistered, List.find?_append, hrest, Registry.Register,
          GoMap.get_set_self]
    · cases hrest : rest.reverse.find? (fun q => q.1 = name) <;>
        simp [lastRegistered, List.find?_append, hrest, hp, Registry.Register,
          GoMap.get_set_other _ _ _ _ hp]

/-- C2: on the registry built by any sequence of `Register` calls, calling a
bound name is running the handler registered last under that name, on the
context and arguments given: the computation `Call` returns is that handler's,
so its effects and its `(result, error)` pair are the handler's own, and no
other handler runs. A `Register` call under another name leaves the call
unchanged. -/
theorem call_registered_runs_bound_handler {m : Type → Type} {F : Type} [Monad m]
    (regs : List (String × Handler m F)) (name : String) (h : Handler m F)
    (ctx : Context) (args : GoMap (Value F))
    (hbound : lastRegistered regs name = some h) :
    (Registry.registerAll regs).Call ctx name args = h ctx args
    ∧ ∀ (r : Registry m F) (other : String) (h' : Handler m F), other ≠ name →
        (r.Register other h').Call ctx name args = r.Call ctx name args := by
  constructor
  · unfold Registry.Call Registry.registerAll
    rw [Registry.get_foldl_Register, hbound]
    rfl
  · intro r other h' hne
    unfold Registry.Call Registry.Register
    rw [GoMap.get_set_other _ _ _ _ hne]

/-- The witness of C2: `trade.cancel` is registered twice; the call runs the
handler registered last. -/
theorem call_registered_runs_bound_handler_witness :
    lastRegistered
        [("trade.cancel", (TradeCancel : Handler Id ℚ)), ("policy.check", PolicyCheck),
         ("trade.cancel", TradeCancelAll)] "trade.cancel" = some TradeCancelAll
    ∧ ((Registry.registerAll
          [("trade.cancel", (TradeCancel : Handler Id ℚ)), ("policy.check", PolicyCheck),
           ("trade.cancel", TradeCancelAll)]).Call ⟨none⟩ "trade.cancel" []
        = TradeCancelAll ⟨none⟩ []
      ∧ ∀ (r : Registry Id ℚ) (other : String) (h' : Handler Id ℚ), other ≠ "trade.cancel" →
          (r.Register other h').Call ⟨none⟩ "trade.cancel" [] = r.Call ⟨none⟩ "trade.cancel" []) :=
  ⟨rfl, call_registered_runs_bound_handler _ "trade.cancel" TradeCancelAll ⟨none⟩ [] rfl⟩

/-- C3, as stated, fails: a handler that returns the nil result and no error
is answered with `ok` true and no `data` field. -/
theorem envelope_ok_without_data :
    ∃ env : GoMap (Value ℚ),
      (NewMux (fun _ => true) stubWithTimeout (Registry.registerAll [("noop", returnsNil)])
          ⟨"POST", ⟨none⟩, some ⟨"noop", []⟩⟩ : Id (HttpOut ℚ)).body = some env
      ∧ env.get "ok" = some (Value.bool true) ∧ env.get "data" = none :=
  ⟨[("ok", Value.bool true)], rfl, rfl, rfl⟩

/-- C3, amended: the gateway answers a well-formed tool call with status 200
and, unless the handler's result cannot be encoded as JSON, with the envelope
of what the handler returned. In that envelope `ok` is true exactly when the
handler returned no error; the `error` field is present exactly when the
handler returned an error with a non-empty message, and then holds that
message; the `data` field is present exactly when the handler returned no
error and a result other than nil, and then holds that result. So `error`
appears only with `ok` false and `data` only with `ok` true. -/
theorem envelope_fields {m : Type → Type} {F : Type} [Monad m] (jsonOk : Value F → Bool) :
    (∀ (withTimeout : Context → Nat → Context) (reg : Registry m F) (ctx : Context)
        (req : request F),
        NewMux jsonOk withTimeout reg ⟨"POST", ctx, some req⟩
          = reg.Call (withTimeout ctx callTimeout) req.Name req.Args >>= fun out =>
              pure (respond jsonOk out))
    ∧ ∀ out : Outcome F, (respond jsonOk out).status = 200
        ∧ ((respond jsonOk out).body = none ↔
            out.2 = none ∧ out.1 ≠ Value.nil ∧ jsonOk out.1 = false)
        ∧ ∀ env : GoMap (Value F), (respond jsonOk out).body = some env →
          env.get "ok" = some (Value.bool out.2.isNone)
          ∧ (∀ msg, env.get "error" = some (Value.str msg) ↔
                out.2 = some ⟨msg⟩ ∧ msg ≠ "")
          ∧ ((env.get "error").isSome ↔ ∃ e, out.2 = some e ∧ e.msg ≠ "")
          ∧ ((env.get "data").isSome ↔ out.2 = none ∧ out.1 ≠ Value.nil)
          ∧ (∀ d, env.get "data" = some d → d = out.1)
          ∧ ((env.get "error").isSome → env.get "ok" = some (Value.bool false))
          ∧ ((env.get "data").isSome → env.get "ok" = some (Value.bool true)) := by
  refine ⟨fun withTimeout reg ctx req => by simp [NewMux], ?_⟩
  rintro ⟨data, err⟩
  cases err with
  | some e =>
    obtain ⟨msg⟩ := e
    by_cases hmsg : msg = ""
    · subst hmsg
      refine ⟨rfl, by simp [respond, writeJSON, response.encodes], ?_⟩
      intro env henv
      simp only [respond, writeJSON, response.encodes, response.encode, if_true,
        Option.some.injEq] at henv
      subst henv
      simp [GoMap.get]
    · refine ⟨rfl, by simp [respond, writeJSON, response.encodes], ?_⟩
      intro env henv
      simp only [respond, writeJSON, response.encodes, response.encode, if_true,
        Option.some.injEq, hmsg, if_false] at henv
      subst henv
      simp [GoMap.get, hmsg]
  | none =>
    cases data with
    | nil =>
      refine ⟨rfl, by simp [respond, writeJSON, response.encodes], ?_⟩
      intro env henv
      simp only [respond, writeJSON, response.encodes, response.encode, if_true,
        Option.some.injEq] at henv
      subst henv
      simp [GoMap.get]
    | bool b =>
      refine ⟨rfl, by simp [respond, writeJSON, response.encodes], ?_⟩
      intro env henv
      cases hj : jsonOk (Value.bool b) <;>
        simp [respond, writeJSON, response.encodes, response.encode, hj] at henv
      subst henv
      simp [GoMap.get]
    | int i =>
      refine ⟨rfl, by simp [respond, writeJSON, response.encodes], ?_⟩
      intro env henv
      cases hj : jsonOk (Value.int i) <;>
        simp [respond, writeJSON, response.encodes, response.encode, hj] at henv
      subst henv
      simp [GoMap.get]
    | num f =>
      refine ⟨rfl, by simp [respond, writeJSON, response.encodes], ?_⟩
      intro env henv
      cases hj : jsonOk (Value.num f) <;>
        simp [respond, writeJSON, response.encodes, response.encode, hj] at henv
      subst henv
      simp [GoMap.get]
    | str x =>
      refine ⟨rfl, by simp [respond, writeJSON, response.encodes], ?_⟩
      intro env henv
      cases hj : jsonOk (Value.str x) <;>
        simp [respond, writeJSON, response.encodes, response.encode, hj] at henv
      subst henv
      simp [GoMap.get]
    | arr xs =>
      refine ⟨rfl, by simp [respond, writeJSON, response.encodes], ?_⟩
      intro env henv
      cases hj : jsonOk (Value.arr xs) <;>
        simp [respond, writeJSON, response.encodes, response.encode, hj] at henv
      subst henv
      simp [GoMap.get]
    | obj o =>
      refine ⟨rfl, by simp [respond, writeJSON, response.encodes], ?_⟩
      intro env henv
      cases hj : jsonOk (Value.obj o) <;>
        simp [respond, writeJSON, response.encodes, response.encode, hj] at henv
      subst henv
      simp [GoMap.get]

/-- C4, as stated, fails: for a registered handler that never returns, the
gateway's handling of the call does not return either, so no Timeout failure
(and no response at all) reaches the caller. -/
theorem gateway_waits_for_blocked_handler :
    NewMux (fun _ => true) stubWithTimeout (Registry.registerAll [("slow", blocksForever)])
      ⟨"POST", ⟨none⟩, some ⟨"slow", []⟩⟩ = none :=
  rfl

/-- C4, amended: whatever context the gateway hands to the handler bound to
the name, it then waits for that handler, and its response is the envelope of
what the handler returns. A handler that returns an error (as one does that
gives up when its context expires) is answered with `ok` false and that
error's message; a handler that returns a result is answered with the
envelope of that result; while the handler has not returned, the gateway has
not answered, and it reports no Timeout of its own. -/
theorem gateway_answers_when_handler_returns {F : Type} (jsonOk : Value F → Bool)
    (withTimeout : Context → Nat → Context)
    (regs : List (String × Handler Option F)) (name : String) (h : Handler Option F)
    (ctx : Context) (args : GoMap (Value F))
    (hbound : lastRegistered regs name = some h) :
    NewMux jsonOk withTimeout (Registry.registerAll regs) ⟨"POST", ctx, some ⟨name, args⟩⟩
        = (h (withTimeout ctx callTimeout) args).map (respond jsonOk)
    ∧ (NewMux jsonOk withTimeout (Registry.registerAll regs)
          ⟨"POST", ctx, some ⟨name, args⟩⟩ = none
        ↔ h (withTimeout ctx callTimeout) args = none)
    ∧ (∀ v e, h (withTimeout ctx callTimeout) args = some (v, some e) →
        NewMux jsonOk withTimeout (Registry.registerAll regs)
            ⟨"POST", ctx, some ⟨name, args⟩⟩
          = some (writeJSON jsonOk 200 ⟨false, e.msg, Value.nil⟩))
    ∧ ∀ v, h (withTimeout ctx callTimeout) args = some (v, none) →
        NewMux jsonOk withTimeout (Registry.registerAll regs)
            ⟨"POST", ctx, some ⟨name, args⟩⟩
          = some (writeJSON jsonOk 200 ⟨true, "", v⟩) := by
  have hmux : NewMux jsonOk withTimeout (Registry.registerAll regs)
        ⟨"POST", ctx, some ⟨name, args⟩⟩
      = (h (withTimeout ctx callTimeout) args).map (respond jsonOk) := by
    simp only [NewMux, Registry.Call, Registry.registerAll]
    rw [Registry.get_foldl_Register, hbound]
    cases hr : h (withTimeout ctx callTimeout) args <;> simp [hr]
  refine ⟨hmux, ?_, ?_, ?_⟩
  · rw [hmux]
    cases h (withTimeout ctx callTimeout) args <;> simp
  · intro v e hret
    rw [hmux, hret]
    rfl
  · intro v hret
    rw [hmux, hret]
    rfl

/-- The witness of C4: a handler that gives up when its context expires is
answered with `ok` false and the context's error. -/
theorem gateway_answers_when_handler_returns_witness :
    lastRegistered [("quote", waitsForDeadline)] "quote" = some waitsForDeadline
    ∧ NewMux (fun _ => true) stubWithTimeout
        (Registry.registerAll [("quote", waitsForDeadline)])
        ⟨"POST", ⟨some 7⟩, some ⟨"quote", []⟩⟩
      = some (writeJSON (fun _ => true) 200 ⟨false, "context deadline exceeded", Value.nil⟩) :=
  ⟨rfl, (gateway_answers_when_handler_returns (fun _ => true) stubWithTimeout
    [("quote", waitsForDeadline)] "quote"
    waitsForDeadline ⟨some 7⟩ [] rfl).2.2.1 Value.nil (Errorf "context deadline exceeded") rfl⟩

/-! ### The brokerage client and the account step -/

open snaptrade in
/-- The function `do` leaves the environment and the brokerage as they are, and either
sends nothing and fails, or sends the one request it built; in that case it
returns no error exactly when the request succeeded. -/
theorem snaptrade.Client.do_trace {F α : Type} (lib : Lib F) (c : Client) (ctx : Context)
    (method path : String) (body : Option (Except GoError String)) (out : α)
    (decode : Option (String → Except GoError α)) (w : World) :
    (c.do lib ctx method path body out decode w).2.getenv = w.getenv
    ∧ (c.do lib ctx method path body out decode w).2.remote = w.remote
    ∧ (((c.do lib ctx method path body out decode w).2.sent = w.sent
          ∧ (c.do lib ctx method path body out decode w).1.2 ≠ none)
       ∨ ∃ buf, (c.do lib ctx method path body out decode w).2.sent
            = w.sent ++ [c.request ctx method path buf]
          ∧ ((body = none ∧ buf = "") ∨ body = some (Except.ok buf))
          ∧ ((c.do lib ctx method path body out decode w).1.2 = none ↔
              (w.remote w.sent (c.request ctx method path buf)).succeeded
                (fun b => match decode with
                          | none => true
                          | some d => (d b).toBool) = true)) := by
  unfold Client.do
  cases hb : (match body with
      | some b => b
      | none => Except.ok "") with
  | error e => simp
  | ok buf =>
    have hbody : (body = none ∧ buf = "") ∨ body = some (Except.ok buf) := by
      cases body with
      | none => exact Or.inl ⟨rfl, by simpa using hb.symm⟩
      | some b => exact Or.inr (by simpa using hb)
    simp only []
    cases lib.newRequest method (c.base ++ path) with
    | some e => simp
    | none =>
      simp only []
      cases hr : w.remote w.sent (c.request ctx method path buf) with
      | failed e =>
        exact ⟨rfl, rfl, Or.inr ⟨buf, rfl, hbody, by simp [HttpResult.succeeded, hr]⟩⟩
      | response status rbody =>
        by_cases hs : status / 100 = 2
        · have h1 : 200 ≤ status ∧ status ≤ 299 := by omega
          cases decode with
          | none =>
            exact ⟨by simp [hs], by simp [hs], Or.inr ⟨buf, by simp [hs], hbody,
              by simp [HttpResult.succeeded, hr, hs, h1]⟩⟩
          | some d =>
            cases hd : d rbody with
            | ok a =>
              exact ⟨by simp [hs, hd], by simp [hs, hd], Or.inr ⟨buf, by simp [hs, hd], hbody,
                by simp [HttpResult.succeeded, hr, hs, h1, hd, Except.toBool]⟩⟩
            | error e =>
              exact ⟨by simp [hs, hd], by simp [hs, hd], Or.inr ⟨buf, by simp [hs, hd], hbody,
                by simp [HttpResult.succeeded, hr, hs, h1, hd, Except.toBool]⟩⟩
        · have h1 : ¬ (200 ≤ status ∧ status ≤ 299) := by omega
          have h2 : (decide (200 ≤ status) && decide (status ≤ 299)) = false := by
            simpa using h1
          exact ⟨by simp [hs], by simp [hs], Or.inr ⟨buf, by simp [hs], hbody,
            by simp [HttpResult.succeeded, hr, hs, h2]⟩⟩

open snaptrade in
/-- The account step, case by case. `L` is the listing of accounts on `w`. -/
theorem resolveStep_cases {F : Type} (lib : Lib F) (ctx : Context) (cli : Client)
    (args : GoMap (Value F)) (w : World) :
    (Value.asString (args.get "account_id") ≠ "" →
      resolveStep lib ctx cli args w = ((Value.asString (args.get "account_id"), none), w))
    ∧ (Value.asString (args.get "account_id") = "" → w.getenv "SNAPTRADE_ACCOUNT_ID" ≠ "" →
      resolveStep lib ctx cli args w = ((w.getenv "SNAPTRADE_ACCOUNT_ID", none), w))
    ∧ (Value.asString (args.get "account_id") = "" → w.getenv "SNAPTRADE_ACCOUNT_ID" = "" →
        ∀ e, (cli.ListAccounts lib ctx w).1.2 = some e →
      resolveStep lib ctx cli args w = (("", some e), (cli.ListAccounts lib ctx w).2))
    ∧ (Value.asString (args.get "account_id") = "" → w.getenv "SNAPTRADE_ACCOUNT_ID" = "" →
        (cli.ListAccounts lib ctx w).1.2 = none → (cli.ListAccounts lib ctx w).1.1 = [] →
      resolveStep lib ctx cli args w
        = (("", some (Errorf "no accounts linked; run brokers connect")),
           (cli.ListAccounts lib ctx w).2))
    ∧ (Value.asString (args.get "account_id") = "" → w.getenv "SNAPTRADE_ACCOUNT_ID" = "" →
        (cli.ListAccounts lib ctx w).1.2 = none →
        ∀ a rest, (cli.ListAccounts lib ctx w).1.1 = a :: rest →
      resolveStep lib ctx cli args w = ((a.ID, none), (cli.ListAccounts lib ctx w).2)) := by
  refine ⟨?_, ?_, ?_, ?_, ?_⟩
  · intro h
    simp [resolveStep, h]
  · intro h hv
    simp [resolveStep, getDefaultAccountID, h, hv]
  · intro h hv e he
    rcases hL : cli.ListAccounts lib ctx w with ⟨⟨accts, err⟩, w1⟩
    rw [hL] at he
    simp only at he
    subst he
    simp [resolveStep, getDefaultAccountID, h, hv, hL]
  · intro h hv he hl
    rcases hL : cli.ListAccounts lib ctx w with ⟨⟨accts, err⟩, w1⟩
    rw [hL] at he hl
    simp only at he hl
    subst he hl
    simp [resolveStep, getDefaultAccountID, h, hv, hL]
  · intro h hv he a rest hl
    rcases hL : cli.ListAccounts lib ctx w with ⟨⟨accts, err⟩, w1⟩
    rw [hL] at he hl
    simp only at he hl
    subst he hl
    simp [resolveStep, getDefaultAccountID, h, hv, hL]

/-- The spec's resolution reads the `account_id` argument through the same
type assertion as the handlers. -/
theorem resolveAccountSpec_eq {F : Type} (explicit : Option (Value F)) (override : String)
    (listed : List snaptrade.Account) :
    resolveAccountSpec explicit override listed
      = if Value.asString explicit ≠ "" then some (Value.asString explicit)
        else if override ≠ "" then some override
        else listed.head?.map fun a => a.ID := by
  unfold resolveAccountSpec
  cases explicit with
  | none => simp [Value.asString]
  | some v => cases v <;> simp [Value.asString]

open snaptrade in
theorem SnapTradePositions_shape {F : Type} (lib : Lib F) (ctx : Context)
    (args : GoMap (Value F)) (w : World) :
    SnapTradePositions lib ctx args w
      = match LoadConfig w.getenv with
        | Except.error err => ((Value.nil, some err), w)
        | Except.ok cfg =>
          withAccount lib ctx (New cfg) args w (positionsTail lib ctx (New cfg)) :=
  rfl

open snaptrade in
theorem SnapTradePlaceOrder_shape {F : Type} [Float64 F] (lib : Lib F) (ctx : Context)
    (args : GoMap (Value F)) (w : World) :
    SnapTradePlaceOrder lib ctx args w
      = match LoadConfig w.getenv with
        | Except.error err => ((Value.nil, some err), w)
        | Except.ok cfg =>
          withAccount lib ctx (New cfg) args w (placeOrderTail lib ctx (New cfg) args) :=
  rfl

open snaptrade in
theorem SnapTradeCancel_shape {F : Type} (lib : Lib F) (ctx : Context)
    (args : GoMap (Value F)) (w : World) :
    SnapTradeCancel lib ctx args w
      = match LoadConfig w.getenv with
        | Except.error err => ((Value.nil, some err), w)
        | Except.ok cfg =>
          withAccount lib ctx (New cfg) args w (cancelTail lib ctx (New cfg) args) :=
  rfl

open snaptrade in
theorem SnapTradeCancelAll_shape {F : Type} (lib : Lib F) (ctx : Context)
    (args : GoMap (Value F)) (w : World) :
    SnapTradeCancelAll lib ctx args w
      = match LoadConfig w.getenv with
        | Except.error err => ((Value.nil, some err), w)
        | Except.ok cfg =>
          withAccount lib ctx (New cfg) args w (cancelAllTail lib ctx (New cfg)) :=
  rfl

open snaptrade in
theorem positionsTail_trace {F : Type} (lib : Lib F) (ctx : Context) (cli : Client)
    (acctID : String) (w1 : World) :
    OpTrace (positionsTail lib ctx cli acctID w1) w1
      (cli.request ctx "GET" ("/accounts/" ++ acctID ++ "/positions")) none
      (fun b => (lib.decodePositions b).toBool) := by
  have h := Client.do_trace lib cli ctx "GET" ("/accounts/" ++ acctID ++ "/positions") none
    ([] : List (Position F)) (some lib.decodePositions) w1
  unfold OpTrace positionsTail Client.GetPositions
  rcases hd : cli.do lib ctx "GET" ("/accounts/" ++ acctID ++ "/positions") none
    ([] : List (Position F)) (some lib.decodePositions) w1 with ⟨⟨pos, _ | e⟩, w2⟩ <;>
    simpa [hd] using h

open snaptrade in
theorem placeOrderTail_trace {F : Type} [Float64 F] (lib : Lib F) (ctx : Context)
    (cli : Client) (args : GoMap (Value F)) (acctID : String) (w1 : World) :
    OpTrace (placeOrderTail lib ctx cli args acctID w1) w1
      (cli.request ctx "POST" ("/accounts/" ++ acctID ++ "/orders"))
      (some (lib.marshalOrder (orderRequest lib (Value.asMap (args.get "order")))))
      (fun b => (lib.decodeOrder b).toBool) := by
  have h := Client.do_trace lib cli ctx "POST" ("/accounts/" ++ acctID ++ "/orders")
    (some (lib.marshalOrder (orderRequest lib (Value.asMap (args.get "order")))))
    (⟨"", ""⟩ : PlaceOrderResponse) (some lib.decodeOrder) w1
  unfold OpTrace placeOrderTail Client.PlaceOrder
  rcases hd : cli.do lib ctx "POST" ("/accounts/" ++ acctID ++ "/orders")
    (some (lib.marshalOrder (orderRequest lib (Value.asMap (args.get "order")))))
    (⟨"", ""⟩ : PlaceOrderResponse) (some lib.decodeOrder) w1 with ⟨⟨out, _ | e⟩, w2⟩ <;>
    simpa [hd] using h

open snaptrade in
theorem cancelAllTail_trace {F : Type} (lib : Lib F) (ctx : Context) (cli : Client)
    (acctID : String) (w1 : World) :
    OpTrace (cancelAllTail lib ctx cli acctID w1 : Outcome F × World) w1
      (cli.request ctx "POST" ("/accounts/" ++ acctID ++ "/orders/cancel_all")) none
      (fun _ => true) := by
  have h := Client.do_trace lib cli ctx "POST" ("/accounts/" ++ acctID ++ "/orders/cancel_all")
    none () none w1
  unfold OpTrace cancelAllTail Client.CancelAll
  rcases hd : cli.do lib ctx "POST" ("/accounts/" ++ acctID ++ "/orders/cancel_all")
    none () none w1 with ⟨⟨u, _ | e⟩, w2⟩ <;>
    simpa [hd] using h

open snaptrade in
theorem cancelTail_trace {F : Type} (lib : Lib F) (ctx : Context) (cli : Client)
    (args : GoMap (Value F)) (acctID : String) (w1 : World)
    (hid : Value.asString (args.get "broker_order_id") ≠ "") :
    OpTrace (cancelTail lib ctx cli args acctID w1) w1
      (cli.request ctx "POST" ("/accounts/" ++ acctID ++ "/orders/"
        ++ Value.asString (args.get "broker_order_id") ++ "/cancel")) none
      (fun _ => true) := by
  have h := Client.do_trace lib cli ctx "POST" ("/accounts/" ++ acctID ++ "/orders/"
        ++ Value.asString (args.get "broker_order_id") ++ "/cancel") none () none w1
  unfold OpTrace cancelTail Client.CancelOrder
  rcases hd : cli.do lib ctx "POST" ("/accounts/" ++ acctID ++ "/orders/"
        ++ Value.asString (args.get "broker_order_id") ++ "/cancel")
    none () none w1 with ⟨⟨u, _ | e⟩, w2⟩ <;>
    simpa [hd, hid] using h

open snaptrade in
/-- The listing of accounts sends `GET /accounts` and nothing else. -/
theorem listAccounts_trace {F : Type} (lib : Lib F) (cli : Client) (ctx : Context) (w : World) :
    (cli.ListAccounts lib ctx w).2.getenv = w.getenv
    ∧ (cli.ListAccounts lib ctx w).2.remote = w.remote
    ∧ (((cli.ListAccounts lib ctx w).2.sent = w.sent ∧ (cli.ListAccounts lib ctx w).1.2 ≠ none)
       ∨ ((cli.ListAccounts lib ctx w).2.sent = w.sent ++ [cli.request ctx "GET" "/accounts" ""]
          ∧ ((cli.ListAccounts lib ctx w).1.2 = none ↔
              (w.remote w.sent (cli.request ctx "GET" "/accounts" "")).succeeded
                (fun b => (lib.decodeAccounts b).toBool) = true))) := by
  have h := Client.do_trace lib cli ctx "GET" "/accounts" none ([] : List Account)
    (some lib.decodeAccounts) w
  unfold Client.ListAccounts
  refine ⟨h.1, h.2.1, ?_⟩
  rcases h.2.2 with h3 | ⟨buf, h3, h4, h5⟩
  · exact Or.inl h3
  · rcases h4 with ⟨-, rfl⟩ | h4
    · exact Or.inr ⟨h3, h5⟩
    · cases h4

open snaptrade in
/-- When the spec resolves an account, the handler goes on with that account,
on the world the listing left if one was needed. -/
theorem withAccount_resolved {F : Type} (lib : Lib F) (ctx : Context) (cli : Client)
    (args : GoMap (Value F)) (w : World) (tail : String → World → Outcome F × World)
    (id : String)
    (hid : resolveAccountSpec (args.get "account_id") (w.getenv "SNAPTRADE_ACCOUNT_ID")
      (cli.ListAccounts lib ctx w).1.1 = some id)
    (hlist : Value.asString (args.get "account_id") = "" →
      w.getenv "SNAPTRADE_ACCOUNT_ID" = "" → (cli.ListAccounts lib ctx w).1.2 = none) :
    withAccount lib ctx cli args w tail
      = tail id (if Value.asString (args.get "account_id") = ""
                    ∧ w.getenv "SNAPTRADE_ACCOUNT_ID" = ""
                 then (cli.ListAccounts lib ctx w).2 else w) := by
  obtain ⟨h1, h2, -, -, h5⟩ := resolveStep_cases lib ctx cli args w
  rw [resolveAccountSpec_eq] at hid
  unfold withAccount
  by_cases ha : Value.asString (args.get "account_id") = ""
  · by_cases hv : w.getenv "SNAPTRADE_ACCOUNT_ID" = ""
    · cases hl : (cli.ListAccounts lib ctx w).1.1 with
      | nil => simp [ha, hv, hl] at hid
      | cons a rest =>
        simp [ha, hv, hl] at hid
        subst hid
        rw [h5 ha hv (hlist ha hv) a rest hl]
        simp [ha, hv]
    · simp [ha, hv] at hid
      subst hid
      rw [h2 ha hv]
      simp [ha, hv]
  · simp [ha] at hid
    subst hid
    rw [h1 ha]
    simp [ha]

open snaptrade in
/-- With no account argument, no override and an empty listing the handler
fails with the error of `getDefaultAccountID`, on the world the listing left. -/
theorem withAccount_unlinked {F : Type} (lib : Lib F) (ctx : Context) (cli : Client)
    (args : GoMap (Value F)) (w : World) (tail : String → World → Outcome F × World)
    (ha : Value.asString (args.get "account_id") = "")
    (hv : w.getenv "SNAPTRADE_ACCOUNT_ID" = "")
    (he : (cli.ListAccounts lib ctx w).1.2 = none)
    (hl : (cli.ListAccounts lib ctx w).1.1 = []) :
    withAccount lib ctx cli args w tail
      = ((Value.nil, some (Errorf "no accounts linked; run brokers connect")),
         (cli.ListAccounts lib ctx w).2) := by
  unfold withAccount
  rw [(resolveStep_cases lib ctx cli args w).2.2.2.1 ha hv he hl]

open snaptrade in
/-- When the listing fails, the handler fails with the listing's error. -/
theorem withAccount_failed {F : Type} (lib : Lib F) (ctx : Context) (cli : Client)
    (args : GoMap (Value F)) (w : World) (tail : String → World → Outcome F × World)
    (ha : Value.asString (args.get "account_id") = "")
    (hv : w.getenv "SNAPTRADE_ACCOUNT_ID" = "") (e : GoError)
    (he : (cli.ListAccounts lib ctx w).1.2 = some e) :
    withAccount lib ctx cli args w tail = ((Value.nil, some e), (cli.ListAccounts lib ctx w).2) := by
  unfold withAccount
  rw [(resolveStep_cases lib ctx cli args w).2.2.1 ha hv e he]

open snaptrade in
/-- An operation sends at most one request, the one it built. -/
theorem OpTrace.sent_by {F : Type} {r : Outcome F × World} {w1 : World}
    {req : String → HttpRequest} {body : Option (Except GoError String)}
    {decodes : String → Bool} (h : OpTrace r w1 req body decodes) :
    ∃ new : List HttpRequest, new.length ≤ 1 ∧ (∀ q ∈ new, ∃ buf, q = req buf
        ∧ ((body = none ∧ buf = "") ∨ body = some (Except.ok buf)))
      ∧ r.2.sent = w1.sent ++ new := by
  rcases h.2.2.2 with ⟨h1, -⟩ | ⟨buf, h1, h2, -⟩
  · exact ⟨[], by simp, by simp, by simpa using h1⟩
  · exact ⟨[req buf], by simp, by simpa using ⟨buf, rfl, h2⟩, h1⟩

open snaptrade in
/-- When the body is marshalled and the request can be built, `do` sends that
request and returns what the reply makes of it. -/
theorem snaptrade.Client.do_run {F α : Type} (lib : Lib F) (c : Client) (ctx : Context)
    (method path : String) (body : Option (Except GoError String)) (out : α)
    (decode : Option (String → Except GoError α)) (w : World) (buf : String)
    (hbody : (body = none ∧ buf = "") ∨ body = some (Except.ok buf))
    (hreq : lib.newRequest method (c.base ++ path) = none) :
    c.do lib ctx method path body out decode w
      = ((match w.remote w.sent (c.request ctx method path buf) with
          | HttpResult.failed err => (out, some err)
          | HttpResult.response status rbody =>
            if status / 100 ≠ 2 then
              (out, some (Errorf ("snaptrade http " ++ toString status)))
            else
              match decode with
              | none => (out, none)
              | some d =>
                match d rbody with
                | Except.ok a => (a, none)
                | Except.error err => (out, some err)),
         { w with sent := w.sent ++ [c.request ctx method path buf] }) := by
  have hb : (match body with
      | some b => b
      | none => Except.ok "") = Except.ok buf := by
    rcases hbody with ⟨rfl, rfl⟩ | rfl <;> rfl
  unfold Client.do
  rw [hb]
  simp only [hreq]
  cases w.remote w.sent (c.request ctx method path buf) with
  | failed e => rfl
  | response status rbody =>
    simp only []
    by_cases hs : status / 100 = 2
    · simp only [hs, ne_eq, not_true_eq_false, if_false]
      cases decode with
      | none => rfl
      | some d =>
        simp only []
        cases hd : d rbody <;> simp [hd]
    · simp only [hs, ne_eq, not_false_eq_true, if_true]

open snaptrade in
/-- When the body cannot be marshalled or the request cannot be built, `do`
sends nothing and fails. -/
theorem snaptrade.Client.do_blocked {F α : Type} (lib : Lib F) (c : Client) (ctx : Context)
    (method path : String) (body : Option (Except GoError String)) (out : α)
    (decode : Option (String → Except GoError α)) (w : World)
    (hblock : (∃ e, body = some (Except.error e))
      ∨ lib.newRequest method (c.base ++ path) ≠ none) :
    (c.do lib ctx method path body out decode w).2 = w
    ∧ (c.do lib ctx method path body out decode w).1.2 ≠ none := by
  unfold Client.do
  rcases hblock with ⟨e, rfl⟩ | hreq
  · simp
  · cases hb : (match body with
        | some b => b
        | none => Except.ok "") with
    | error e => simp
    | ok buf =>
      cases hn : lib.newRequest method (c.base ++ path) with
      | none => exact absurd hn hreq
      | some e => simp

open snaptrade in
theorem positionsTail_world {F : Type} (lib : Lib F) (ctx : Context) (cli : Client)
    (acctID : String) (w1 : World) :
    (positionsTail lib ctx cli acctID w1).2
      = (cli.do lib ctx "GET" ("/accounts/" ++ acctID ++ "/positions") none
          ([] : List (Position F)) (some lib.decodePositions) w1).2 := by
  unfold positionsTail Client.GetPositions
  rcases cli.do lib ctx "GET" ("/accounts/" ++ acctID ++ "/positions") none
    ([] : List (Position F)) (some lib.decodePositions) w1 with ⟨⟨pos, _ | e⟩, w2⟩ <;> rfl

open snaptrade in
theorem placeOrderTail_world {F : Type} [Float64 F] (lib : Lib F) (ctx : Context)
    (cli : Client) (args : GoMap (Value F)) (acctID : String) (w1 : World) :
    (placeOrderTail lib ctx cli args acctID w1).2
      = (cli.do lib ctx "POST" ("/accounts/" ++ acctID ++ "/orders")
          (some (lib.marshalOrder (orderRequest lib (Value.asMap (args.get "order")))))
          (⟨"", ""⟩ : PlaceOrderResponse) (some lib.decodeOrder) w1).2 := by
  unfold placeOrderTail Client.PlaceOrder
  rcases cli.do lib ctx "POST" ("/accounts/" ++ acctID ++ "/orders")
    (some (lib.marshalOrder (orderRequest lib (Value.asMap (args.get "order")))))
    (⟨"", ""⟩ : PlaceOrderResponse) (some lib.decodeOrder) w1 with ⟨⟨out, _ | e⟩, w2⟩ <;> rfl

open snaptrade in
theorem cancelAllTail_world {F : Type} (lib : Lib F) (ctx : Context) (cli : Client)
    (acctID : String) (w1 : World) :
    (cancelAllTail lib ctx cli acctID w1 : Outcome F × World).2
      = (cli.do lib ctx "POST" ("/accounts/" ++ acctID ++ "/orders/cancel_all")
          none () none w1).2 := by
  unfold cancelAllTail Client.CancelAll
  rcases cli.do lib ctx "POST" ("/accounts/" ++ acctID ++ "/orders/cancel_all")
    none () none w1 with ⟨⟨u, _ | e⟩, w2⟩ <;> rfl

open snaptrade in
theorem cancelTail_world {F : Type} (lib : Lib F) (ctx : Context) (cli : Client)
    (args : GoMap (Value F)) (acctID : String) (w1 : World) :
    (cancelTail lib ctx cli args acctID w1).2
      = if Value.asString (args.get "broker_order_id") = "" then w1
        else (cli.do lib ctx "POST" ("/accounts/" ++ acctID ++ "/orders/"
            ++ Value.asString (args.get "broker_order_id") ++ "/cancel") none () none w1).2 := by
  unfold cancelTail Client.CancelOrder
  by_cases ho : Value.asString (args.get "broker_order_id") = ""
  · simp [ho]
  · simp only [ho, if_false]
    rcases cli.do lib ctx "POST" ("/accounts/" ++ acctID ++ "/orders/"
      ++ Value.asString (args.get "broker_order_id") ++ "/cancel") none () none w1
      with ⟨⟨u, _ | e⟩, w2⟩ <;> rfl

open snaptrade in
/-- The world the account step leaves when it yields an account: nothing sent
when the argument or the override gave it, the listing sent otherwise. -/
theorem afterStep_sent {F : Type} (lib : Lib F) (ctx : Context) (cli : Client)
    (args : GoMap (Value F)) (w : World)
    (hlist : Value.asString (args.get "account_id") = "" →
      w.getenv "SNAPTRADE_ACCOUNT_ID" = "" → (cli.ListAccounts lib ctx w).1.2 = none) :
    (if Value.asString (args.get "account_id") = "" ∧ w.getenv "SNAPTRADE_ACCOUNT_ID" = ""
      then (cli.ListAccounts lib ctx w).2 else w).sent
        = (if Value.asString (args.get "account_id") = ""
              ∧ w.getenv "SNAPTRADE_ACCOUNT_ID" = ""
           then w.sent ++ [cli.request ctx "GET" "/accounts" ""] else w.sent)
    ∧ (if Value.asString (args.get "account_id") = "" ∧ w.getenv "SNAPTRADE_ACCOUNT_ID" = ""
        then (cli.ListAccounts lib ctx w).2 else w).remote = w.remote := by
  by_cases hn : Value.asString (args.get "account_id") = ""
      ∧ w.getenv "SNAPTRADE_ACCOUNT_ID" = ""
  · rw [if_pos hn, if_pos hn]
    have hL := listAccounts_trace lib cli ctx w
    refine ⟨?_, hL.2.1⟩
    rcases hL.2.2 with ⟨-, hbad⟩ | ⟨hsent, -⟩
    · exact absurd (hlist hn.1 hn.2) hbad
    · exact hsent
  · rw [if_neg hn, if_neg hn]
    exact ⟨rfl, rfl⟩

open snaptrade in
/-- The requests of a handler that is the shared frame around `tail`, once the
spec resolves an account: what the account step sent, then what `tail` sends
on the resolved account. -/
theorem withAccount_sent {F : Type} (lib : Lib F) (ctx : Context) (cli : Client)
    (args : GoMap (Value F)) (w : World) (tail : String → World → Outcome F × World)
    (id : String) (more : List HttpRequest)
    (hid : resolveAccountSpec (args.get "account_id") (w.getenv "SNAPTRADE_ACCOUNT_ID")
      (cli.ListAccounts lib ctx w).1.1 = some id)
    (hlist : Value.asString (args.get "account_id") = "" →
      w.getenv "SNAPTRADE_ACCOUNT_ID" = "" → (cli.ListAccounts lib ctx w).1.2 = none)
    (htail : ∀ w1, (tail id w1).2.sent = w1.sent ++ more) :
    (withAccount lib ctx cli args w tail).2.sent
      = (if Value.asString (args.get "account_id") = ""
            ∧ w.getenv "SNAPTRADE_ACCOUNT_ID" = ""
         then w.sent ++ [cli.request ctx "GET" "/accounts" ""] else w.sent) ++ more := by
  rw [withAccount_resolved lib ctx cli args w tail id hid hlist, htail,
    (afterStep_sent lib ctx cli args w hlist).1]

open snaptrade in
/-- C5: with credentials configured, each of the positions, place-order,
cancel and cancel-all handlers acts on the account the spec resolves: the
explicit `account_id` argument when it is a non-empty string, else the
environment override when it is non-empty, else the first account of a
successful listing. Whenever its request can go out (its own argument check
passes, the body is marshalled, the request is built), the handler sends,
after the listing if one was needed and nothing else, exactly the request of
its method to `/accounts/<id>/...` with `<id>` that account; when the request
cannot go out nothing follows the account step. When there is no argument, no
override and the listing returns zero accounts, the handler returns the error
`no accounts linked; run brokers connect` with the nil result, and the
listing is the only request it sent. -/
theorem account_resolution {F : Type} [Float64 F] (lib : Lib F) (ctx : Context)
    (args : GoMap (Value F)) (w : World) (cfg : Config) (op : AccountOp F)
    (hop : op ∈ accountOps lib)
    (hcfg : LoadConfig w.getenv = Except.ok cfg) :
    (∀ id,
      resolveAccountSpec (args.get "account_id") (w.getenv "SNAPTRADE_ACCOUNT_ID")
        ((New cfg).ListAccounts lib ctx w).1.1 = some id →
      (Value.asString (args.get "account_id") = "" → w.getenv "SNAPTRADE_ACCOUNT_ID" = "" →
        ((New cfg).ListAccounts lib ctx w).1.2 = none) →
      (∀ buf, ((op.body args = none ∧ buf = "") ∨ op.body args = some (Except.ok buf)) →
        op.ready args = true →
        lib.newRequest op.method ((New cfg).base ++ ("/accounts/" ++ id ++ op.path args))
          = none →
        (op.handler ctx args w).2.sent
          = (if Value.asString (args.get "account_id") = ""
                ∧ w.getenv "SNAPTRADE_ACCOUNT_ID" = ""
             then w.sent ++ [(New cfg).request ctx "GET" "/accounts" ""] else w.sent)
            ++ [(New cfg).request ctx op.method ("/accounts/" ++ id ++ op.path args) buf])
      ∧ ((op.ready args = false ∨ (∃ e, op.body args = some (Except.error e))
            ∨ lib.newRequest op.method
                ((New cfg).base ++ ("/accounts/" ++ id ++ op.path args)) ≠ none) →
        (op.handler ctx args w).2.sent
          = (if Value.asString (args.get "account_id") = ""
                ∧ w.getenv "SNAPTRADE_ACCOUNT_ID" = ""
             then w.sent ++ [(New cfg).request ctx "GET" "/accounts" ""] else w.sent)))
    ∧ (Value.asString (args.get "account_id") = "" → w.getenv "SNAPTRADE_ACCOUNT_ID" = "" →
        ((New cfg).ListAccounts lib ctx w).1.2 = none →
        ((New cfg).ListAccounts lib ctx w).1.1 = [] →
        op.handler ctx args w
          = ((Value.nil, some (Errorf "no accounts linked; run brokers connect")),
             ((New cfg).ListAccounts lib ctx w).2)
        ∧ ((New cfg).ListAccounts lib ctx w).2.sent
            = w.sent ++ [(New cfg).request ctx "GET" "/accounts" ""]) := by
  have hlisting : Value.asString (args.get "account_id") = "" →
      w.getenv "SNAPTRADE_ACCOUNT_ID" = "" →
      ((New cfg).ListAccounts lib ctx w).1.2 = none →
      ((New cfg).ListAccounts lib ctx w).2.sent
        = w.sent ++ [(New cfg).request ctx "GET" "/accounts" ""] := by
    intro _ _ he
    rcases (listAccounts_trace lib (New cfg) ctx w).2.2 with ⟨-, h⟩ | ⟨h, -⟩
    · exact absurd he h
    · exact h
  simp only [accountOps, List.mem_cons, List.mem_singleton, List.not_mem_nil, or_false] at hop
  rcases hop with rfl | rfl | rfl | rfl
  · simp only []
    rw [SnapTradePositions_shape, hcfg]
    simp only []
    refine ⟨fun id hid hlist => ⟨?_, ?_⟩, fun ha hv he hl =>
      ⟨withAccount_unlinked lib ctx (New cfg) args w _ ha hv he hl, hlisting ha hv he⟩⟩
    · intro buf hbuf _ hreq
      refine withAccount_sent lib ctx (New cfg) args w _ id _ hid hlist (fun w1 => ?_)
      rw [positionsTail_world, Client.do_run lib (New cfg) ctx "GET" _ none _ _ w1 buf
        (by simpa using hbuf) hreq]
    · intro hblock
      have hreq : lib.newRequest "GET"
          ((New cfg).base ++ ("/accounts/" ++ id ++ "/positions")) ≠ none := by
        simpa using hblock
      have := withAccount_sent lib ctx (New cfg) args w
        (positionsTail lib ctx (New cfg)) id [] hid hlist (fun w1 => by
          rw [positionsTail_world, (Client.do_blocked lib (New cfg) ctx "GET" _ none _ _ w1
            (Or.inr hreq)).1, List.append_nil])
      simpa using this
  · simp only []
    rw [SnapTradePlaceOrder_shape, hcfg]
    simp only []
    refine ⟨fun id hid hlist => ⟨?_, ?_⟩, fun ha hv he hl =>
      ⟨withAccount_unlinked lib ctx (New cfg) args w _ ha hv he hl, hlisting ha hv he⟩⟩
    · intro buf hbuf _ hreq
      refine withAccount_sent lib ctx (New cfg) args w _ id _ hid hlist (fun w1 => ?_)
      rw [placeOrderTail_world, Client.do_run lib (New cfg) ctx "POST" _ _ _ _ w1 buf
        (by simpa using hbuf) hreq]
    · intro hblock
      have hb : (∃ e, some (lib.marshalOrder (orderRequest lib (Value.asMap (args.get "order"))))
            = some (Except.error e))
          ∨ lib.newRequest "POST"
              ((New cfg).base ++ ("/accounts/" ++ id ++ "/orders")) ≠ none := by
        simpa using hblock
      have := withAccount_sent lib ctx (New cfg) args w
        (placeOrderTail lib ctx (New cfg) args) id [] hid hlist (fun w1 => by
          rw [placeOrderTail_world, (Client.do_blocked lib (New cfg) ctx "POST" _ _ _ _ w1
            hb).1, List.append_nil])
      simpa using this
  · simp only []
    rw [SnapTradeCancel_shape, hcfg]
    simp only []
    have hpath : ∀ id, "/accounts/" ++ id ++ "/orders/"
          ++ Value.asString (args.get "broker_order_id") ++ "/cancel"
        = "/accounts/" ++ id
          ++ ("/orders/" ++ Value.asString (args.get "broker_order_id") ++ "/cancel") := by
      intro id
      simp [String.append_assoc]
    refine ⟨fun id hid hlist => ⟨?_, ?_⟩, fun ha hv he hl =>
      ⟨withAccount_unlinked lib ctx (New cfg) args w _ ha hv he hl, hlisting ha hv he⟩⟩
    · intro buf hbuf hready hreq
      have ho : Value.asString (args.get "broker_order_id") ≠ "" := by simpa using hready
      refine withAccount_sent lib ctx (New cfg) args w _ id _ hid hlist (fun w1 => ?_)
      rw [cancelTail_world, if_neg ho, hpath, Client.do_run lib (New cfg) ctx "POST" _ none _ _
        w1 buf (by simpa using hbuf) hreq]
    · intro hblock
      have := withAccount_sent lib ctx (New cfg) args w
        (cancelTail lib ctx (New cfg) args) id [] hid hlist (fun w1 => by
          rw [cancelTail_world, List.append_nil]
          by_cases ho : Value.asString (args.get "broker_order_id") = ""
          · rw [if_pos ho]
          · have hreq : lib.newRequest "POST" ((New cfg).base ++ ("/accounts/" ++ id
                ++ ("/orders/" ++ Value.asString (args.get "broker_order_id") ++ "/cancel")))
                ≠ none := by
              simpa [ho] using hblock
            rw [if_neg ho, hpath, (Client.do_blocked lib (New cfg) ctx "POST" _ none _ _ w1
              (Or.inr hreq)).1])
      simpa using this
  · simp only []
    rw [SnapTradeCancelAll_shape, hcfg]
    simp only []
    refine ⟨fun id hid hlist => ⟨?_, ?_⟩, fun ha hv he hl =>
      ⟨withAccount_unlinked lib ctx (New cfg) args w _ ha hv he hl, hlisting ha hv he⟩⟩
    · intro buf hbuf _ hreq
      refine withAccount_sent lib ctx (New cfg) args w _ id _ hid hlist (fun w1 => ?_)
      rw [cancelAllTail_world, Client.do_run lib (New cfg) ctx "POST" _ none _ _ w1 buf
        (by simpa using hbuf) hreq]
    · intro hblock
      have hreq : lib.newRequest "POST"
          ((New cfg).base ++ ("/accounts/" ++ id ++ "/orders/cancel_all")) ≠ none := by
        simpa using hblock
      have := withAccount_sent lib ctx (New cfg) args w
        (cancelAllTail lib ctx (New cfg)) id [] hid hlist (fun w1 => by
          rw [cancelAllTail_world, (Client.do_blocked lib (New cfg) ctx "POST" _ none _ _ w1
            (Or.inr hreq)).1, List.append_nil])
      simpa using this

open snaptrade in
/-- The witness of C5: with credentials only and a brokerage that lists the
account `A1`, the positions handler sends the listing and then the positions
request of `A1`; with a brokerage that lists zero accounts it fails with the
error of the account step, having sent the listing only. -/
theorem account_resolution_witness :
    ({ handler := SnapTradePositions stubLib, method := "GET", path := fun _ => "/positions",
       body := fun _ => none, ready := fun _ => true } : AccountOp ℚ) ∈ accountOps stubLib
    ∧ LoadConfig (stubWorld "[A1]" 200).getenv = Except.ok ⟨"cid", "secret", "sandbox"⟩
    ∧ resolveAccountSpec (GoMap.get ([] : GoMap (Value ℚ)) "account_id")
        ((stubWorld "[A1]" 200).getenv "SNAPTRADE_ACCOUNT_ID")
        ((New ⟨"cid", "secret", "sandbox"⟩).ListAccounts stubLib ⟨none⟩
          (stubWorld "[A1]" 200)).1.1 = some "A1"
    ∧ (SnapTradePositions stubLib ⟨none⟩ [] (stubWorld "[A1]" 200)).2.sent
        = [(New ⟨"cid", "secret", "sandbox"⟩).request ⟨none⟩ "GET" "/accounts" "",
           (New ⟨"cid", "secret", "sandbox"⟩).request ⟨none⟩ "GET"
             "/accounts/A1/positions" ""]
    ∧ SnapTradePositions stubLib ⟨none⟩ [] (stubWorld "[]" 200)
        = ((Value.nil, some (Errorf "no accounts linked; run brokers connect")),
           ((New ⟨"cid", "secret", "sandbox"⟩).ListAccounts stubLib ⟨none⟩
              (stubWorld "[]" 200)).2) :=
  ⟨List.Mem.head _, rfl, rfl,
    ((account_resolution stubLib ⟨none⟩ [] (stubWorld "[A1]" 200) ⟨"cid", "secret", "sandbox"⟩
      { handler := SnapTradePositions stubLib, method := "GET", path := fun _ => "/positions",
        body := fun _ => none, ready := fun _ => true }
      (List.Mem.head _) rfl).1 "A1" rfl (fun _ _ => rfl)).1 "" (Or.inl ⟨rfl, rfl⟩) rfl rfl,
    ((account_resolution stubLib ⟨none⟩ [] (stubWorld "[]" 200) ⟨"cid", "secret", "sandbox"⟩
      { handler := SnapTradePositions stubLib, method := "GET", path := fun _ => "/positions",
        body := fun _ => none, ready := fun _ => true }
      (List.Mem.head _) rfl).2 rfl rfl rfl rfl).1⟩

open snaptrade in
/-- The account step leaves the world as it was or as the listing left it;
in the second case it yields an account only if the listing succeeded. -/
theorem resolveStep_world {F : Type} (lib : Lib F) (ctx : Context) (cli : Client)
    (args : GoMap (Value F)) (w : World) :
    (resolveStep lib ctx cli args w).2 = w
    ∨ ((resolveStep lib ctx cli args w).2 = (cli.ListAccounts lib ctx w).2
       ∧ ((resolveStep lib ctx cli args w).1.2 = none →
            (cli.ListAccounts lib ctx w).1.2 = none)) := by
  unfold resolveStep getDefaultAccountID
  by_cases ha : Value.asString (args.get "account_id") = ""
  · by_cases hv : w.getenv "SNAPTRADE_ACCOUNT_ID" = ""
    · right
      rcases hL : cli.ListAccounts lib ctx w with ⟨⟨accts, _ | e⟩, w1⟩
      · cases accts <;> simp [ha, hv, hL]
      · simp [ha, hv, hL]
    · left
      simp [ha, hv]
  · left
    simp [ha]

open snaptrade in
/-- The requests of the account step: none, or the listing. -/
theorem resolveStep_sent {F : Type} (lib : Lib F) (ctx : Context) (cli : Client)
    (args : GoMap (Value F)) (w : World) :
    (resolveStep lib ctx cli args w).2.sent = w.sent
    ∨ (resolveStep lib ctx cli args w).2.sent
        = w.sent ++ [cli.request ctx "GET" "/accounts" ""] := by
  rcases resolveStep_world lib ctx cli args w with h | ⟨h, -⟩
  · exact Or.inl (by rw [h])
  · rw [h]
    rcases (listAccounts_trace lib cli ctx w).2.2 with ⟨h', -⟩ | ⟨h', -⟩
    · exact Or.inl h'
    · exact Or.inr h'

open snaptrade in
/-- C6, as stated, fails: with credentials configured, no account argument,
no override and a brokerage that lists zero accounts, a cancel call without
`broker_order_id` fails with the error of the account step, not with
`broker_order_id required`. -/
theorem cancel_unlinked_before_order_check :
    LoadConfig (stubWorld "[]" 200).getenv = Except.ok ⟨"cid", "secret", "sandbox"⟩
    ∧ GoMap.get ([] : GoMap (Value ℚ)) "broker_order_id" = none
    ∧ (SnapTradeCancel stubLib ⟨none⟩ [] (stubWorld "[]" 200)).1
        = (Value.nil, some (Errorf "no accounts linked; run brokers connect"))
    ∧ (SnapTradeCancel stubLib ⟨none⟩ [] (stubWorld "[]" 200)).1.2
        ≠ some (Errorf "broker_order_id required") :=
  ⟨rfl, rfl, rfl, by decide⟩

open snaptrade in
/-- C6, amended: with credentials configured, a cancel call whose
`broker_order_id` is absent, not a string or empty returns an error and the
nil result, and sends nothing beyond the listing of accounts that the account
step may need, so no cancel request. The error is `broker_order_id required`
whenever the account step yields an account: an explicit `account_id`, the
environment override, or the first account of a successful listing. Otherwise
it is the error of the account step: the error of the listing when the
listing fails (`snaptrade http <status>` for a status outside 200-299), and
`no accounts linked; run brokers connect` when it lists zero accounts. -/
theorem cancel_requires_order_id {F : Type} (lib : Lib F) (ctx : Context)
    (args : GoMap (Value F)) (w : World) (cfg : Config)
    (hcfg : LoadConfig w.getenv = Except.ok cfg)
    (hoid : ∀ s, args.get "broker_order_id" = some (Value.str s) → s = "") :
    (SnapTradeCancel lib ctx args w).1.1 = Value.nil
    ∧ (SnapTradeCancel lib ctx args w).1.2 ≠ none
    ∧ ((SnapTradeCancel lib ctx args w).2.sent = w.sent
       ∨ (SnapTradeCancel lib ctx args w).2.sent
           = w.sent ++ [(New cfg).request ctx "GET" "/accounts" ""])
    ∧ (∀ id,
        resolveAccountSpec (args.get "account_id") (w.getenv "SNAPTRADE_ACCOUNT_ID")
          ((New cfg).ListAccounts lib ctx w).1.1 = some id →
        (Value.asString (args.get "account_id") = "" → w.getenv "SNAPTRADE_ACCOUNT_ID" = "" →
          ((New cfg).ListAccounts lib ctx w).1.2 = none) →
        (SnapTradeCancel lib ctx args w).1.2 = some (Errorf "broker_order_id required")
        ∧ SnapTradeCancel lib ctx args w
            = ((Value.nil, some (Errorf "broker_order_id required")),
               if Value.asString (args.get "account_id") = ""
                  ∧ w.getenv "SNAPTRADE_ACCOUNT_ID" = ""
               then ((New cfg).ListAccounts lib ctx w).2 else w))
    ∧ (Value.asString (args.get "account_id") = "" → w.getenv "SNAPTRADE_ACCOUNT_ID" = "" →
        ∀ e, ((New cfg).ListAccounts lib ctx w).1.2 = some e →
        SnapTradeCancel lib ctx args w
          = ((Value.nil, some e), ((New cfg).ListAccounts lib ctx w).2))
    ∧ (Value.asString (args.get "account_id") = "" → w.getenv "SNAPTRADE_ACCOUNT_ID" = "" →
        ((New cfg).ListAccounts lib ctx w).1.2 = none →
        ((New cfg).ListAccounts lib ctx w).1.1 = [] →
        SnapTradeCancel lib ctx args w
          = ((Value.nil, some (Errorf "no accounts linked; run brokers connect")),
             ((New cfg).ListAccounts lib ctx w).2))
    ∧ (Value.asString (args.get "account_id") = "" → w.getenv "SNAPTRADE_ACCOUNT_ID" = "" →
        lib.newRequest "GET" ((New cfg).base ++ "/accounts") = none →
        ∀ status body,
          w.remote w.sent ((New cfg).request ctx "GET" "/accounts" "")
            = HttpResult.response status body →
          ¬ (200 ≤ status ∧ status ≤ 299) →
          (SnapTradeCancel lib ctx args w).1
            = (Value.nil, some (Errorf ("snaptrade http " ++ toString status)))) := by
  have ho : Value.asString (args.get "broker_order_id") = "" := by
    cases hg : args.get "broker_order_id" with
    | none => rfl
    | some v =>
      cases v with
      | str s => simpa [Value.asString] using hoid s hg
      | _ => rfl
  rw [SnapTradeCancel_shape, hcfg]
  simp only []
  have hfail : Value.asString (args.get "account_id") = "" →
      w.getenv "SNAPTRADE_ACCOUNT_ID" = "" →
      ∀ e, ((New cfg).ListAccounts lib ctx w).1.2 = some e →
      withAccount lib ctx (New cfg) args w (cancelTail lib ctx (New cfg) args)
        = ((Value.nil, some e), ((New cfg).ListAccounts lib ctx w).2) :=
    fun ha hv e he => withAccount_failed lib ctx (New cfg) args w _ ha hv e he
  refine ⟨?_, ?_, ?_, ?_, hfail, ?_, ?_⟩
  · unfold withAccount
    rcases resolveStep lib ctx (New cfg) args w with ⟨⟨id, _ | e⟩, w1⟩ <;>
      simp [cancelTail, ho]
  · unfold withAccount
    rcases resolveStep lib ctx (New cfg) args w with ⟨⟨id, _ | e⟩, w1⟩ <;>
      simp [cancelTail, ho]
  · have hs := resolveStep_sent lib ctx (New cfg) args w
    unfold withAccount
    rcases hr : resolveStep lib ctx (New cfg) args w with ⟨⟨id, _ | e⟩, w1⟩ <;>
      simpa [cancelTail, ho, hr] using hs
  · intro id hid hlist
    rw [withAccount_resolved lib ctx (New cfg) args w _ id hid hlist]
    simp [cancelTail, ho]
  · intro ha hv he hl
    exact withAccount_unlinked lib ctx (New cfg) args w _ ha hv he hl
  · intro ha hv hreq status body hreply hbad
    have hL : ((New cfg).ListAccounts lib ctx w).1.2
        = some (Errorf ("snaptrade http " ++ toString status)) := by
      have hs : status / 100 ≠ 2 := by omega
      unfold Client.ListAccounts
      rw [Client.do_run lib (New cfg) ctx "GET" "/accounts" none _ _ w ""
        (Or.inl ⟨rfl, rfl⟩) hreq, hreply]
      simp [hs]
    rw [hfail ha hv _ hL]

open snaptrade in
/-- The witness of C6: with an account given, the missing `broker_order_id`
is what the call fails on; with no account given and a brokerage that answers
the listing with status 500, the call fails with the listing's error. -/
theorem cancel_requires_order_id_witness :
    LoadConfig (stubWorld "[]" 200).getenv = Except.ok ⟨"cid", "secret", "sandbox"⟩
    ∧ (∀ s, GoMap.get ([("account_id", Value.str "A7")] : GoMap (Value ℚ)) "broker_order_id"
          = some (Value.str s) → s = "")
    ∧ (SnapTradeCancel stubLib ⟨none⟩ [("account_id", Value.str "A7")]
          (stubWorld "[]" 200)).1.2 = some (Errorf "broker_order_id required")
    ∧ LoadConfig failingWorld.getenv = Except.ok ⟨"cid", "secret", "sandbox"⟩
    ∧ (∀ s, GoMap.get ([] : GoMap (Value ℚ)) "broker_order_id" = some (Value.str s) → s = "")
    ∧ (SnapTradeCancel stubLib ⟨none⟩ [] failingWorld).1
        = (Value.nil, some (Errorf ("snaptrade http " ++ toString 500))) :=
  ⟨rfl, by simp [GoMap.get],
    ((cancel_requires_order_id stubLib ⟨none⟩ [("account_id", Value.str "A7")]
      (stubWorld "[]" 200) ⟨"cid", "secret", "sandbox"⟩ rfl (by simp [GoMap.get])).2.2.2.1
        "A7" rfl (by simp [GoMap.get, Value.asString])).1,
    rfl, by simp [GoMap.get],
    (cancel_requires_order_id stubLib ⟨none⟩ [] failingWorld ⟨"cid", "secret", "sandbox"⟩ rfl
      (by simp [GoMap.get])).2.2.2.2.2.2 rfl rfl rfl 500 "" rfl (by decide)⟩

/-- C7, as stated, fails: an order whose `type` is the boolean `true` is
forwarded with the empty type, while the string representation of that field
is `true`. -/
theorem order_type_not_string_dropped :
    (orderRequest stubLib [("type", Value.bool true)]).OrderType = ""
    ∧ SprintField stubLib.fmtFloat (GoMap.get ([("type", Value.bool true)] : GoMap (Value ℚ)) "type")
        = "true" := by
  constructor
  · simp [orderRequest, GoMap.get, Value.asString?]
  · simp [SprintField, GoMap.get, Sprint]

open snaptrade in
/-- In every call, the only `POST` the place-order handler sends carries the
marshalled `PlaceOrderRequest` built from the `order` argument (before it, at
most the listing of accounts goes out); and the fields of that request, read
off the `order` map. -/
theorem orderRequest_posts_and_fields {F : Type} [Float64 F] (lib : Lib F) (ctx : Context)
    (args : GoMap (Value F)) (w : World) :
    (∃ pre new : List HttpRequest,
        (SnapTradePlaceOrder lib ctx args w).2.sent = w.sent ++ pre ++ new
        ∧ pre.length ≤ 1 ∧ (∀ q ∈ pre, q.method = "GET")
        ∧ new.length ≤ 1
        ∧ ∀ q ∈ new, q.method = "POST"
            ∧ lib.marshalOrder (orderRequest lib (Value.asMap (args.get "order")))
                = Except.ok q.body)
    ∧ ∀ order : GoMap (Value F),
        (orderRequest lib order).ClientID = SprintField lib.fmtFloat (order.get "client_id")
        ∧ (orderRequest lib order).Symbol = SprintField lib.fmtFloat (order.get "symbol")
        ∧ (orderRequest lib order).Side = SprintField lib.fmtFloat (order.get "side")
        ∧ (orderRequest lib order).TIF = SprintField lib.fmtFloat (order.get "tif")
        ∧ (∀ k s, order.get k = some (Value.str s) →
              SprintField lib.fmtFloat (order.get k) = s)
        ∧ (∀ s, order.get "client_id" = some (Value.str s) →
              (orderRequest lib order).ClientID = s)
        ∧ (∀ s, order.get "type" = some (Value.str s) → (orderRequest lib order).OrderType = s)
        ∧ ((∀ s, order.get "type" ≠ some (Value.str s)) →
              (orderRequest lib order).OrderType = "")
        ∧ (∀ x, order.get "qty" = some (Value.num x) → (orderRequest lib order).Quantity = x)
        ∧ (∀ x, order.get "limit_price" = some (Value.num x) →
              (orderRequest lib order).LimitPrice = x)
        ∧ (order.get "limit_price" = none →
              (orderRequest lib order).LimitPrice = Float64.zero) := by
  constructor
  · rw [SnapTradePlaceOrder_shape]
    cases hcfg : LoadConfig w.getenv with
    | error e => exact ⟨[], [], by simp, by simp, by simp, by simp, by simp⟩
    | ok cfg =>
      simp only []
      have hs := resolveStep_sent lib ctx (New cfg) args w
      unfold withAccount
      rcases hr : resolveStep lib ctx (New cfg) args w with ⟨⟨id, _ | e⟩, w1⟩
      · rw [hr] at hs
        simp only [] at hs ⊢
        obtain ⟨new, h1, h2, h3⟩ := (placeOrderTail_trace lib ctx (New cfg) args id w1).sent_by
        have hnew : ∀ q ∈ new, q.method = "POST"
            ∧ lib.marshalOrder (orderRequest lib (Value.asMap (args.get "order")))
                = Except.ok q.body := by
          intro q hq
          obtain ⟨buf, rfl, hb⟩ := h2 q hq
          rcases hb with ⟨hb, -⟩ | hb
          · cases hb
          · exact ⟨rfl, by simpa using hb⟩
        rcases hs with hs | hs
        · exact ⟨[], new, by rw [h3, hs]; simp, by simp, by simp, h1, hnew⟩
        · exact ⟨[(New cfg).request ctx "GET" "/accounts" ""], new, by rw [h3, hs], by simp,
            by simp [Client.request], h1, hnew⟩
      · rw [hr] at hs
        simp only [] at hs ⊢
        rcases hs with hs | hs
        · exact ⟨[], [], by simp [hs], by simp, by simp, by simp, by simp⟩
        · exact ⟨[(New cfg).request ctx "GET" "/accounts" ""], [], by simp [hs], by simp,
            by simp [Client.request], by simp, by simp⟩
  · intro order
    refine ⟨rfl, rfl, rfl, rfl, ?_, ?_, ?_, ?_, ?_, ?_, ?_⟩
    · intro k s h
      simp [SprintField, h, Sprint]
    · intro s h
      simp [orderRequest, SprintField, h, Sprint]
    · intro s h
      simp [orderRequest, h, Value.asString?]
    · intro h
      cases hg : order.get "type" with
      | none => simp [orderRequest, hg, Value.asString?]
      | some v =>
        cases v with
        | str s => exact absurd hg (h s)
        | _ => simp [orderRequest, hg, Value.asString?]
    · intro x h
      simp [orderRequest, h, Value.asFloat?]
    · intro x h
      simp [orderRequest, h, Value.asFloat?]
    · intro h
      simp [orderRequest, h, Value.asFloat?]

open snaptrade in
/-- C7, amended: with credentials configured and an account resolved, the
place-order handler forwards the order whenever the request can be built: it
sends, after the listing if one was needed and nothing else, exactly one
`POST` to `/accounts/<id>/orders` whose body is the marshalled
`PlaceOrderRequest` built from the `order` argument, and on a reply with a
status between 200 and 299 that decodes it returns the broker order id and
status of that reply; on any other reply, or when the request cannot be
built, it returns an error and no result. In the forwarded request the client
id, the symbol, the side and the tif are the string representations of the
order fields, a string (such as a caller-supplied client id) being carried
unchanged; the type is the `type` field when that is a string and empty
otherwise; quantity and limit price are the `float64` fields `qty` and
`limit_price`, and the limit price is zero when `limit_price` is missing. -/
theorem place_order_request_fields {F : Type} [Float64 F] (lib : Lib F) (ctx : Context)
    (args : GoMap (Value F)) (w : World) (cfg : Config) (id : String)
    (hcfg : LoadConfig w.getenv = Except.ok cfg)
    (hid : resolveAccountSpec (args.get "account_id") (w.getenv "SNAPTRADE_ACCOUNT_ID")
      ((New cfg).ListAccounts lib ctx w).1.1 = some id)
    (hlist : Value.asString (args.get "account_id") = "" →
      w.getenv "SNAPTRADE_ACCOUNT_ID" = "" → ((New cfg).ListAccounts lib ctx w).1.2 = none) :
    (∀ buf, lib.marshalOrder (orderRequest lib (Value.asMap (args.get "order"))) = Except.ok buf →
      lib.newRequest "POST" ((New cfg).base ++ ("/accounts/" ++ id ++ "/orders")) = none →
      (SnapTradePlaceOrder lib ctx args w).2.sent
          = (if Value.asString (args.get "account_id") = ""
                ∧ w.getenv "SNAPTRADE_ACCOUNT_ID" = ""
             then w.sent ++ [(New cfg).request ctx "GET" "/accounts" ""] else w.sent)
            ++ [(New cfg).request ctx "POST" ("/accounts/" ++ id ++ "/orders") buf]
      ∧ (∀ status rbody out,
          w.remote
              (if Value.asString (args.get "account_id") = ""
                  ∧ w.getenv "SNAPTRADE_ACCOUNT_ID" = ""
               then w.sent ++ [(New cfg).request ctx "GET" "/accounts" ""] else w.sent)
              ((New cfg).request ctx "POST" ("/accounts/" ++ id ++ "/orders") buf)
            = HttpResult.response status rbody →
          200 ≤ status ∧ status ≤ 299 → lib.decodeOrder rbody = Except.ok out →
          (SnapTradePlaceOrder lib ctx args w).1
            = (Value.obj [("broker_order_id", Value.str out.BrokerOrderID),
                          ("status", Value.str out.Status)], none))
      ∧ ((w.remote
              (if Value.asString (args.get "account_id") = ""
                  ∧ w.getenv "SNAPTRADE_ACCOUNT_ID" = ""
               then w.sent ++ [(New cfg).request ctx "GET" "/accounts" ""] else w.sent)
              ((New cfg).request ctx "POST" ("/accounts/" ++ id ++ "/orders") buf)).succeeded
            (fun b => (lib.decodeOrder b).toBool) = false →
          (SnapTradePlaceOrder lib ctx args w).1.2 ≠ none
          ∧ (SnapTradePlaceOrder lib ctx args w).1.1 = Value.nil))
    ∧ (((∃ e, lib.marshalOrder (orderRequest lib (Value.asMap (args.get "order")))
            = Except.error e)
          ∨ lib.newRequest "POST" ((New cfg).base ++ ("/accounts/" ++ id ++ "/orders")) ≠ none) →
        (SnapTradePlaceOrder lib ctx args w).2.sent
            = (if Value.asString (args.get "account_id") = ""
                  ∧ w.getenv "SNAPTRADE_ACCOUNT_ID" = ""
               then w.sent ++ [(New cfg).request ctx "GET" "/accounts" ""] else w.sent)
        ∧ (SnapTradePlaceOrder lib ctx args w).1.2 ≠ none
        ∧ (SnapTradePlaceOrder lib ctx args w).1.1 = Value.nil)
    ∧ ∀ order : GoMap (Value F),
        (orderRequest lib order).ClientID = SprintField lib.fmtFloat (order.get "client_id")
        ∧ (orderRequest lib order).Symbol = SprintField lib.fmtFloat (order.get "symbol")
        ∧ (orderRequest lib order).Side = SprintField lib.fmtFloat (order.get "side")
        ∧ (orderRequest lib order).TIF = SprintField lib.fmtFloat (order.get "tif")
        ∧ (∀ k s, order.get k = some (Value.str s) →
              SprintField lib.fmtFloat (order.get k) = s)
        ∧ (∀ s, order.get "client_id" = some (Value.str s) →
              (orderRequest lib order).ClientID = s)
        ∧ (∀ s, order.get "type" = some (Value.str s) → (orderRequest lib order).OrderType = s)
        ∧ ((∀ s, order.get "type" ≠ some (Value.str s)) →
              (orderRequest lib order).OrderType = "")
        ∧ (∀ x, order.get "qty" = some (Value.num x) → (orderRequest lib order).Quantity = x)
        ∧ (∀ x, order.get "limit_price" = some (Value.num x) →
              (orderRequest lib order).LimitPrice = x)
        ∧ (order.get "limit_price" = none →
              (orderRequest lib order).LimitPrice = Float64.zero) := by
  have hshape : SnapTradePlaceOrder lib ctx args w
      = placeOrderTail lib ctx (New cfg) args id
          (if Value.asString (args.get "account_id") = ""
              ∧ w.getenv "SNAPTRADE_ACCOUNT_ID" = ""
           then ((New cfg).ListAccounts lib ctx w).2 else w) := by
    rw [SnapTradePlaceOrder_shape, hcfg]
    exact withAccount_resolved lib ctx (New cfg) args w _ id hid hlist
  obtain ⟨hs, hr⟩ := afterStep_sent lib ctx (New cfg) args w hlist
  have htrace := placeOrderTail_trace lib ctx (New cfg) args id
    (if Value.asString (args.get "account_id") = "" ∧ w.getenv "SNAPTRADE_ACCOUNT_ID" = ""
     then ((New cfg).ListAccounts lib ctx w).2 else w)
  rw [hshape]
  generalize (if Value.asString (args.get "account_id") = ""
      ∧ w.getenv "SNAPTRADE_ACCOUNT_ID" = ""
    then ((New cfg).ListAccounts lib ctx w).2 else w) = w0 at hs hr htrace ⊢
  refine ⟨?_, ?_, (orderRequest_posts_and_fields lib ctx args w).2⟩
  · intro buf hbuf hreq
    have hrun := Client.do_run lib (New cfg) ctx "POST" ("/accounts/" ++ id ++ "/orders")
      (some (lib.marshalOrder (orderRequest lib (Value.asMap (args.get "order")))))
      (⟨"", ""⟩ : PlaceOrderResponse) (some lib.decodeOrder) w0 buf
      (Or.inr (by rw [hbuf])) hreq
    refine ⟨?_, ?_, ?_⟩
    · rw [placeOrderTail_world, hrun, ← hs]
    · intro status rbody out hreply hstatus hdec
      have h2 : status / 100 = 2 := by omega
      rw [← hs, ← hr] at hreply
      unfold placeOrderTail Client.PlaceOrder
      rw [hrun, hreply]
      simp [h2, hdec]
    · intro hbad
      rw [← hs, ← hr] at hbad
      rcases htrace.2.2.2 with ⟨-, herr⟩ | ⟨buf', hsent, hb', hiff⟩
      · exact ⟨herr, htrace.2.2.1 herr⟩
      · have hbb : buf' = buf := by
          rcases hb' with ⟨hb', -⟩ | hb'
          · cases hb'
          · rw [hbuf] at hb'
            simpa using hb'.symm
        subst hbb
        have herr : (placeOrderTail lib ctx (New cfg) args id w0).1.2 ≠ none := by
          intro hn
          rw [hiff.1 hn] at hbad
          cases hbad
        exact ⟨herr, htrace.2.2.1 herr⟩
  · intro hblock
    have hb := Client.do_blocked lib (New cfg) ctx "POST" ("/accounts/" ++ id ++ "/orders")
      (some (lib.marshalOrder (orderRequest lib (Value.asMap (args.get "order")))))
      (⟨"", ""⟩ : PlaceOrderResponse) (some lib.decodeOrder) w0
      (by
        rcases hblock with ⟨e, he⟩ | hq
        · exact Or.inl ⟨e, by rw [he]⟩
        · exact Or.inr hq)
    have hsent : (placeOrderTail lib ctx (New cfg) args id w0).2.sent = w0.sent := by
      rw [placeOrderTail_world, hb.1]
    have herr : (placeOrderTail lib ctx (New cfg) args id w0).1.2 ≠ none := by
      rcases htrace.2.2.2 with ⟨-, herr⟩ | ⟨buf', hsent', -, -⟩
      · exact herr
      · rw [hsent] at hsent'
        simp at hsent'
    exact ⟨by rw [hsent, hs], herr, htrace.2.2.1 herr⟩

open snaptrade in
/-- The witness of C7: a placement on account `A7` with client id `c-1` sends
one `POST` whose body (the stand-in marshals a request as its client id) is
`c-1`, and returns what the brokerage answered. -/
theorem place_order_request_fields_witness :
    LoadConfig acceptingWorld.getenv = Except.ok ⟨"cid", "secret", "sandbox"⟩
    ∧ resolveAccountSpec (GoMap.get sampleOrderArgs "account_id")
        (acceptingWorld.getenv "SNAPTRADE_ACCOUNT_ID")
        ((New ⟨"cid", "secret", "sandbox"⟩).ListAccounts stubLib ⟨none⟩ acceptingWorld).1.1
        = some "A7"
    ∧ stubLib.marshalOrder (orderRequest stubLib (Value.asMap (GoMap.get sampleOrderArgs "order")))
        = Except.ok "c-1"
    ∧ (SnapTradePlaceOrder stubLib ⟨none⟩ sampleOrderArgs acceptingWorld).2.sent
        = [(New ⟨"cid", "secret", "sandbox"⟩).request ⟨none⟩ "POST" "/accounts/A7/orders" "c-1"]
    ∧ (SnapTradePlaceOrder stubLib ⟨none⟩ sampleOrderArgs acceptingWorld).1
        = (Value.obj [("broker_order_id", Value.str "B-1"),
                      ("status", Value.str "ACCEPTED")], none) :=
  ⟨rfl, rfl, rfl,
    ((place_order_request_fields stubLib ⟨none⟩ sampleOrderArgs acceptingWorld
      ⟨"cid", "secret", "sandbox"⟩ "A7" rfl rfl
      (fun h => absurd h (by decide))).1 "c-1" rfl rfl).1,
    ((place_order_request_fields stubLib ⟨none⟩ sampleOrderArgs acceptingWorld
      ⟨"cid", "secret", "sandbox"⟩ "A7" rfl rfl
      (fun h => absurd h (by decide))).1 "c-1" rfl rfl).2.1 200 "accepted" ⟨"B-1", "ACCEPTED"⟩
        rfl (by decide) rfl⟩

open snaptrade in
/-- A request that succeeded with its body decoded succeeded as a transport
exchange. -/
theorem succeeded_transport (r : HttpResult) (decodes : String → Bool)
    (h : r.succeeded decodes = true) : r.succeeded (fun _ => true) = true := by
  cases r with
  | failed e => simp [HttpResult.succeeded] at h
  | response status body =>
    simp only [HttpResult.succeeded, Bool.and_eq_true] at h ⊢
    exact ⟨h.1, trivial⟩

open snaptrade in
/-- An operation that returns no error sent its request and saw it succeed. -/
theorem OpTrace.success {F : Type} {r : Outcome F × World} {w1 : World}
    {req : String → HttpRequest} {body : Option (Except GoError String)}
    {decodes : String → Bool} (h : OpTrace r w1 req body decodes) :
    (r.1.2 ≠ none → r.1.1 = Value.nil)
    ∧ (r.1.2 = none → ∃ op, r.2.sent = w1.sent ++ [op]
        ∧ (w1.remote w1.sent op).succeeded decodes = true) := by
  refine ⟨h.2.2.1, fun hn => ?_⟩
  rcases h.2.2.2 with ⟨-, h1⟩ | ⟨buf, h1, -, h2⟩
  · exact absurd hn h1
  · exact ⟨req buf, h1, h2.1 hn⟩

open snaptrade in
/-- The success of a handler that is the shared frame around `tail`: one
request that succeeded, or the listing and then one request, both of which
succeeded. -/
theorem withAccount_success {F : Type} (lib : Lib F) (ctx : Context) (cli : Client)
    (args : GoMap (Value F)) (w : World) (tail : String → World → Outcome F × World)
    (decodes : String → Bool)
    (htail : ∀ id w1, ((tail id w1).1.2 ≠ none → (tail id w1).1.1 = Value.nil)
      ∧ ((tail id w1).1.2 = none → ∃ op, (tail id w1).2.sent = w1.sent ++ [op]
          ∧ (w1.remote w1.sent op).succeeded decodes = true)) :
    ((withAccount lib ctx cli args w tail).1.2 ≠ none →
        (withAccount lib ctx cli args w tail).1.1 = Value.nil)
    ∧ ((withAccount lib ctx cli args w tail).1.2 = none →
        (∃ op, (withAccount lib ctx cli args w tail).2.sent = w.sent ++ [op]
            ∧ (w.remote w.sent op).succeeded decodes = true)
        ∨ (∃ l op, (withAccount lib ctx cli args w tail).2.sent = w.sent ++ [l, op]
            ∧ (w.remote w.sent l).succeeded (fun b => (lib.decodeAccounts b).toBool) = true
            ∧ (w.remote (w.sent ++ [l]) op).succeeded decodes = true)) := by
  have hw := resolveStep_world lib ctx cli args w
  have hL := listAccounts_trace lib cli ctx w
  unfold withAccount
  rcases hr : resolveStep lib ctx cli args w with ⟨⟨id, _ | e⟩, w1⟩
  · rw [hr] at hw
    simp only [] at hw ⊢
    refine ⟨(htail id w1).1, fun hn => ?_⟩
    obtain ⟨op, h1, h2⟩ := (htail id w1).2 hn
    rcases hw with rfl | ⟨rfl, hok⟩
    · exact Or.inl ⟨op, h1, h2⟩
    · have hok' := hok trivial
      rcases hL.2.2 with ⟨-, hbad⟩ | ⟨hsent, hiff⟩
      · exact absurd hok' hbad
      · refine Or.inr ⟨cli.request ctx "GET" "/accounts" "", op, ?_, hiff.1 hok', ?_⟩
        · rw [h1, hsent]
          simp
        · rw [hL.2.1, hsent] at h2
          exact h2
  · simp

open snaptrade in
/-- C8: a brokerage-backed handler never returns a result beside an error,
and returns without an error only when every brokerage request it made
succeeded: it then made exactly its own request, or the listing of accounts
followed by its own request, and each got a response with a status between
200 and 299 whose body, where one is expected, decoded. Hence, whenever the
transport fails or answers with another status for any request the handler
made, the handler returns an error. -/
theorem backend_failure_surfaces {F : Type} [Float64 F] (lib : Lib F) (ctx : Context)
    (args : GoMap (Value F)) (w : World)
    (H : Handler (StateM World) F) (opDecodes : String → Bool)
    (hH : (H, opDecodes) ∈ brokerageHandlers lib) :
    ((H ctx args w).1.2 ≠ none → (H ctx args w).1.1 = Value.nil)
    ∧ ((H ctx args w).1.2 = none →
        (∃ op, (H ctx args w).2.sent = w.sent ++ [op]
            ∧ (w.remote w.sent op).succeeded opDecodes = true)
        ∨ (∃ l op, (H ctx args w).2.sent = w.sent ++ [l, op]
            ∧ (w.remote w.sent l).succeeded (fun b => (lib.decodeAccounts b).toBool) = true
            ∧ (w.remote (w.sent ++ [l]) op).succeeded opDecodes = true))
    ∧ (∀ pre q post, (H ctx args w).2.sent = w.sent ++ pre ++ q :: post →
        (w.remote (w.sent ++ pre) q).succeeded (fun _ => true) = false →
        (H ctx args w).1.2 ≠ none ∧ (H ctx args w).1.1 = Value.nil) := by
  have key : ((H ctx args w).1.2 ≠ none → (H ctx args w).1.1 = Value.nil)
      ∧ ((H ctx args w).1.2 = none →
        (∃ op, (H ctx args w).2.sent = w.sent ++ [op]
            ∧ (w.remote w.sent op).succeeded opDecodes = true)
        ∨ (∃ l op, (H ctx args w).2.sent = w.sent ++ [l, op]
            ∧ (w.remote w.sent l).succeeded (fun b => (lib.decodeAccounts b).toBool) = true
            ∧ (w.remote (w.sent ++ [l]) op).succeeded opDecodes = true)) := by
    simp only [brokerageHandlers, List.mem_cons, Prod.mk.injEq, List.mem_singleton,
      List.not_mem_nil, or_false] at hH
    rcases hH with ⟨rfl, rfl⟩ | ⟨rfl, rfl⟩ | ⟨rfl, rfl⟩ | ⟨rfl, rfl⟩ | ⟨rfl, rfl⟩
    · unfold SnapTradeAccounts
      cases hcfg : LoadConfig w.getenv with
      | error e => simp
      | ok cfg =>
        simp only []
        have hL := listAccounts_trace lib (New cfg) ctx w
        rcases hl : (New cfg).ListAccounts lib ctx w with ⟨⟨accts, _ | e⟩, w1⟩
        · rw [hl] at hL
          simp only [] at hL ⊢
          refine ⟨by simp, fun _ => Or.inl ?_⟩
          rcases hL.2.2 with ⟨-, hbad⟩ | ⟨hsent, hiff⟩
          · exact absurd rfl hbad
          · exact ⟨_, hsent, hiff.1 trivial⟩
        · simp
    · rw [SnapTradePositions_shape]
      cases hcfg : LoadConfig w.getenv with
      | error e => simp
      | ok cfg =>
        exact withAccount_success lib ctx (New cfg) args w _ _
          (fun id w1 => (positionsTail_trace lib ctx (New cfg) id w1).success)
    · rw [SnapTradePlaceOrder_shape]
      cases hcfg : LoadConfig w.getenv with
      | error e => simp
      | ok cfg =>
        exact withAccount_success lib ctx (New cfg) args w _ _
          (fun id w1 => (placeOrderTail_trace lib ctx (New cfg) args id w1).success)
    · rw [SnapTradeCancel_shape]
      cases hcfg : LoadConfig w.getenv with
      | error e => simp
      | ok cfg =>
        refine withAccount_success lib ctx (New cfg) args w _ _ (fun id w1 => ?_)
        by_cases ho : Value.asString (args.get "broker_order_id") = ""
        · simp [cancelTail, ho]
        · exact (cancelTail_trace lib ctx (New cfg) args id w1 ho).success
    · rw [SnapTradeCancelAll_shape]
      cases hcfg : LoadConfig w.getenv with
      | error e => simp
      | ok cfg =>
        exact withAccount_success lib ctx (New cfg) args w _ _
          (fun id w1 => (cancelAllTail_trace lib ctx (New cfg) id w1).success)
  refine ⟨key.1, key.2, ?_⟩
  intro pre q post hsent hfail
  have herr : (H ctx args w).1.2 ≠ none := by
    intro hn
    rcases key.2 hn with ⟨op, h1, h2⟩ | ⟨l, op, h1, h2, h3⟩
    · rw [h1, List.append_assoc] at hsent
      have h := List.append_cancel_left hsent
      cases pre with
      | nil =>
        simp only [List.nil_append, List.cons.injEq] at h
        obtain ⟨rfl, -⟩ := h
        rw [List.append_nil, succeeded_transport _ _ h2] at hfail
        cases hfail
      | cons a pre' => simp at h
    · rw [h1, List.append_assoc] at hsent
      have h := List.append_cancel_left hsent
      cases pre with
      | nil =>
        simp only [List.nil_append, List.cons.injEq] at h
        obtain ⟨rfl, -⟩ := h
        rw [List.append_nil, succeeded_transport _ _ h2] at hfail
        cases hfail
      | cons a pre' =>
        cases pre' with
        | nil =>
          simp only [List.cons_append, List.nil_append, List.cons.injEq] at h
          obtain ⟨rfl, rfl, -⟩ := h
          rw [succeeded_transport _ _ h3] at hfail
          cases hfail
        | cons b pre'' => simp at h
  exact ⟨herr, key.1 herr⟩

open snaptrade in
/-- The witness of C8: the listing succeeds, the positions request is
answered with status 500, and the handler returns an error and no result. -/
theorem backend_failure_surfaces_witness :
    (SnapTradePositions stubLib, fun b => (stubLib.decodePositions b).toBool)
        ∈ brokerageHandlers stubLib
    ∧ (SnapTradePositions stubLib ⟨none⟩ [] (stubWorld "[A1]" 500)).1.2 ≠ none
    ∧ (SnapTradePositions stubLib ⟨none⟩ [] (stubWorld "[A1]" 500)).1.1 = Value.nil :=
  ⟨List.Mem.tail _ (List.Mem.head _),
    (backend_failure_surfaces stubLib ⟨none⟩ [] (stubWorld "[A1]" 500)
      (SnapTradePositions stubLib) (fun b => (stubLib.decodePositions b).toBool)
      (List.Mem.tail _ (List.Mem.head _))).2.2
      [(New ⟨"cid", "secret", "sandbox"⟩).request ⟨none⟩ "GET" "/accounts" ""]
      ((New ⟨"cid", "secret", "sandbox"⟩).request ⟨none⟩ "GET" "/accounts/A1/positions" "")
      [] rfl rfl⟩

/-- C9, where the code departs from the claim: `AuditLog` never returns an
error, and it reports `persisted` false when the log cannot be opened; but
once the log is open it reports `persisted` true whatever the write does. On
a disk where the write fails with nothing written, the result is
`persisted: true` and the log is unchanged. -/
theorem audit_persisted_despite_failed_write :
    (∀ (F : Type) (marshal : Value F → String × Option GoError) (ctx : Context)
        (args : GoMap (Value F)) (fs : AuditFs),
        (AuditLog marshal ctx args fs).1.2 = none
        ∧ (fs.openFile ≠ none →
            AuditLog marshal ctx args fs
              = ((Value.obj [("persisted", Value.bool false)], none), fs))
        ∧ (fs.openFile = none →
            (AuditLog marshal ctx args fs).1.1
              = Value.obj [("persisted", Value.bool true)]))
    ∧ (AuditLog stubMarshal ⟨none⟩ [("event", Value.str "order.placed")] fullDisk).1
        = (Value.obj [("persisted", Value.bool true)], none)
    ∧ (AuditLog stubMarshal ⟨none⟩ [("event", Value.str "order.placed")] fullDisk).2.content
        = fullDisk.content := by
  refine ⟨?_, rfl, ?_⟩
  · intro F marshal ctx args fs
    unfold AuditLog
    cases h : fs.openFile <;> simp
  · simp [AuditLog, fullDisk]

/-! ### The trade preview -/

theorem GoMap.get_some_mem_keys {V : Type} (m : GoMap V) (k : String) (v : V)
    (h : m.get k = some v) : k ∈ m.keys := by
  unfold GoMap.keys
  rw [List.mem_dedup]
  induction m with
  | nil => simp [GoMap.get] at h
  | cons p rest ih =>
    obtain ⟨k', v'⟩ := p
    by_cases hk : k' = k
    · simp [hk]
    · simp only [GoMap.get, hk, if_false] at h
      simp [ih h]

/-- The entries `range` visits are those the map holds. -/
theorem GoMap.mem_range {V : Type} (m : GoMap V) (k : String) (v : V) :
    (k, v) ∈ m.range ↔ m.get k = some v := by
  unfold GoMap.range
  rw [List.mem_filterMap]
  constructor
  · rintro ⟨k', -, h⟩
    cases hg : m.get k' with
    | none => simp [hg] at h
    | some v' =>
      simp only [hg, Option.map_some', Option.some.injEq, Prod.mk.injEq] at h
      obtain ⟨rfl, rfl⟩ := h
      exact hg
  · intro h
    exact ⟨k, GoMap.get_some_mem_keys m k v h, by simp [h]⟩

/-- Writing a run of entries one after the other: a key reads as the last
entry of the run for it, or as it read before. -/
theorem GoMap.get_foldl_set {V : Type} (l : List (String × V)) (acc : GoMap V) (k : String) :
    (l.foldl (fun (oo : GoMap V) kv => oo.set kv.1 kv.2) acc).get k
      = ((l.reverse.find? fun p => p.1 = k).map Prod.snd).or (acc.get k) := by
  induction l generalizing acc with
  | nil => simp
  | cons p rest ih =>
    obtain ⟨k', v'⟩ := p
    rw [List.foldl_cons, ih]
    by_cases hp : k' = k
    · subst hp
      cases hrest : rest.reverse.find? (fun q => q.1 = k') <;>
        simp [List.find?_append, hrest, GoMap.get_set_self]
    · cases hrest : rest.reverse.find? (fun q => q.1 = k) <;>
        simp [List.find?_append, hrest, hp, GoMap.get_set_other _ _ _ _ hp]

/-- The loop `for k, v := range o { oo[k] = v }` on an empty `oo` copies `o`. -/
theorem GoMap.get_copy {V : Type} (o : GoMap V) (k : String) :
    (o.range.foldl (fun (oo : GoMap V) kv => oo.set kv.1 kv.2) []).get k = o.get k := by
  rw [GoMap.get_foldl_set]
  cases hf : o.range.reverse.find? (fun p => p.1 = k) with
  | some p =>
    obtain ⟨k', v'⟩ := p
    have hk : k' = k := by simpa using List.find?_some hf
    have hmem : (k', v') ∈ o.range := List.mem_reverse.1 (List.mem_of_find?_eq_some hf)
    subst hk
    simp [(GoMap.mem_range o k' v').1 hmem]
  | none =>
    cases hg : o.get k with
    | none => simp [GoMap.get]
    | some v =>
      have hmem : (k, v) ∈ o.range.reverse :=
        List.mem_reverse.2 ((GoMap.mem_range o k v).2 hg)
      have := List.find?_eq_none.1 hf (k, v) hmem
      simp at this

/-- The loop of `TradePreview` writes one order per element, in order. -/
theorem previewLoop_orders {F : Type} [Float64 F] (ordersAny : List (Value F)) :
    (previewLoop ordersAny).2 = ordersAny.map fun oi => (previewOrder oi).2 := by
  have h : ∀ (l : List (Value F)) (acc : F × List (GoMap (Value F))),
      (l.foldl (fun acc oi =>
          (Float64.add acc.1 (previewOrder oi).1, acc.2 ++ [(previewOrder oi).2])) acc).2
        = acc.2 ++ l.map fun oi => (previewOrder oi).2 := by
    intro l
    induction l with
    | nil => simp
    | cons x xs ih =>
      intro acc
      rw [List.foldl_cons, ih]
      simp
  simpa [previewLoop] using h ordersAny (Float64.zero, [])

/-- C10, as stated, fails: an input order that has an `estimated_total` field
of its own does not keep it; the output holds quantity times limit price. -/
theorem preview_overwrites_estimated_total :
    ∃ out : GoMap (Value ℚ), previewOrdersOf
        (TradePreview ⟨none⟩
          [("orders", Value.arr [Value.obj [("qty", Value.num (2 : ℚ)),
            ("limit_price", Value.num 3), ("estimated_total", Value.num 99)]])] : Id (Outcome ℚ))
        = [Value.obj out]
      ∧ GoMap.get ([("qty", Value.num (2 : ℚ)), ("limit_price", Value.num 3),
            ("estimated_total", Value.num 99)] : GoMap (Value ℚ)) "estimated_total"
          = some (Value.num 99)
      ∧ out.get "estimated_total" = some (Value.num 6)
      ∧ out.get "estimated_total" ≠ some (Value.num 99) := by
  refine ⟨(previewOrder (Value.obj [("qty", Value.num (2 : ℚ)),
      ("limit_price", Value.num 3), ("estimated_total", Value.num 99)])).2, ?_, rfl, ?_, ?_⟩
  · simp [previewOrdersOf, TradePreview, previewLoop_orders, Value.asMap, Value.asSlice?,
      GoMap.get, pure]
  · simp only [previewOrder, GoMap.get_set_self]
    simp [Value.asMap, Value.asFloat, Value.asFloat?, GoMap.get, Float64.mul]
    norm_num
  · simp only [previewOrder, GoMap.get_set_self]
    simp [Value.asMap, Value.asFloat, Value.asFloat?, GoMap.get, Float64.mul]
    norm_num

/-- C10, amended: the `orders` of the result hold one order per input order,
in the input's order. Each output order has every field of its input order
other than `estimated_total` with the input's value, and its
`estimated_total` is the `float64` product of `qty` and `limit_price`, each
taken as zero when it is absent or not a `float64`; an `estimated_total` in
the input is replaced. -/
theorem preview_orders {F : Type} [Float64 F] (ctx : Context) (args : GoMap (Value F))
    (orders : List (Value F)) (horders : args.get "orders" = some (Value.arr orders)) :
    previewOrdersOf (TradePreview ctx args : Id (Outcome F))
        = orders.map (fun oi => Value.obj (previewOrder oi).2)
    ∧ (previewOrdersOf (TradePreview ctx args : Id (Outcome F))).length = orders.length
    ∧ ∀ oi : Value F,
        (∀ k, k ≠ "estimated_total" →
            (previewOrder oi).2.get k = (Value.asMap (some oi)).get k)
        ∧ (previewOrder oi).2.get "estimated_total"
            = some (Value.num (Float64.mul
                (Value.asFloat ((Value.asMap (some oi)).get "qty"))
                (Value.asFloat ((Value.asMap (some oi)).get "limit_price")))) := by
  have h1 : previewOrdersOf (TradePreview ctx args : Id (Outcome F))
      = orders.map (fun oi => Value.obj (previewOrder oi).2) := by
    simp [previewOrdersOf, TradePreview, previewLoop_orders, Value.asMap, Value.asSlice?,
      GoMap.get, pure, horders]
  refine ⟨h1, by rw [h1, List.length_map], ?_⟩
  intro oi
  constructor
  · intro k hk
    simp only [previewOrder]
    rw [GoMap.get_set_other _ _ _ _ (Ne.symm hk), GoMap.get_copy]
  · simp only [previewOrder, GoMap.get_set_self]

/-- The witness of C10: one order of 10 at 5. -/
theorem preview_orders_witness :
    GoMap.get sampleArgs "orders"
      = some (Value.arr [Value.obj [("qty", Value.num (10 : ℚ)),
          ("limit_price", Value.num 5), ("symbol", Value.str "AAPL")]])
    ∧ (previewOrdersOf (TradePreview ⟨none⟩ sampleArgs : Id (Outcome ℚ))).length = 1 :=
  ⟨rfl, (preview_orders ⟨none⟩ sampleArgs
    [Value.obj [("qty", Value.num (10 : ℚ)), ("limit_price", Value.num 5),
      ("symbol", Value.str "AAPL")]] rfl).2.1⟩

/-! ### The impact of a preview -/

/-- The loop of `TradePreview` adds the value of every order, in order, to a
total that starts at zero. -/
theorem previewLoop_total {F : Type} [Float64 F] (ordersAny : List (Value F)) :
    (previewLoop ordersAny).1
      = (ordersAny.map fun oi => (previewOrder oi).1).foldl Float64.add Float64.zero := by
  have h : ∀ (l : List (Value F)) (acc : F × List (GoMap (Value F))),
      (l.foldl (fun acc oi =>
          (Float64.add acc.1 (previewOrder oi).1, acc.2 ++ [(previewOrder oi).2])) acc).1
        = (l.map fun oi => (previewOrder oi).1).foldl Float64.add acc.1 := by
    intro l
    induction l with
    | nil => simp
    | cons x xs ih =>
      intro acc
      rw [List.foldl_cons, ih]
      simp
  simpa [previewLoop] using h ordersAny (Float64.zero, [])

/-- C11: in the result of a preview, the `estimated_total` of every output
order is the value of that order; `impact.total_value` is the sum of these
values, added in order to a total that starts at zero; the commission is 1.00
and the fees are 0.46 and 0.01; `impact.total_cost` is `total_value + 1.47`,
which is `total_value` plus the commission plus the sum of the fees in every
arithmetic where `1.00 + (0.46 + 0.01)` is `1.47` (so in exact arithmetic, and
for these three constants in IEEE 754 doubles). For the single order of 10 at
5, in exact arithmetic, `total_value` is 50 and `total_cost` is 51.47. -/
theorem preview_impact {F : Type} [Float64 F] (ctx : Context) (args : GoMap (Value F))
    (orders : List (Value F)) (horders : args.get "orders" = some (Value.arr orders))
    (hfees : Float64.add (Float64.lit 100 2) (Float64.add (Float64.lit 46 2) (Float64.lit 1 2))
      = (Float64.lit 147 2 : F)) :
    (∀ oi : Value F,
        (previewOrder oi).2.get "estimated_total" = some (Value.num (previewOrder oi).1))
    ∧ (impactOf (TradePreview ctx args : Id (Outcome F))).get "total_value"
        = some (Value.num
            ((orders.map fun oi => (previewOrder oi).1).foldl Float64.add Float64.zero))
    ∧ (impactOf (TradePreview ctx args : Id (Outcome F))).get "commission"
        = some (Value.num (Float64.lit 100 2))
    ∧ (impactOf (TradePreview ctx args : Id (Outcome F))).get "fees"
        = some (Value.arr
            [Value.obj [("type", Value.str "SEC"), ("amount", Value.num (Float64.lit 46 2))],
             Value.obj [("type", Value.str "TAF"), ("amount", Value.num (Float64.lit 1 2))]])
    ∧ (impactOf (TradePreview ctx args : Id (Outcome F))).get "total_cost"
        = some (Value.num (Float64.add
            ((orders.map fun oi => (previewOrder oi).1).foldl Float64.add Float64.zero)
            (Float64.add (Float64.lit 100 2)
              (Float64.add (Float64.lit 46 2) (Float64.lit 1 2)))))
    ∧ (impactOf (TradePreview ⟨none⟩
          [("orders", Value.arr [Value.obj [("qty", Value.num (10 : ℚ)),
            ("limit_price", Value.num 5)]])] : Id (Outcome ℚ))).get "total_value"
        = some (Value.num 50)
    ∧ (impactOf (TradePreview ⟨none⟩
          [("orders", Value.arr [Value.obj [("qty", Value.num (10 : ℚ)),
            ("limit_price", Value.num 5)]])] : Id (Outcome ℚ))).get "total_cost"
        = some (Value.num (5147 / 100)) := by
  refine ⟨?_, ?_, ?_, ?_, ?_, ?_, ?_⟩
  · intro oi
    simp only [previewOrder, GoMap.get_set_self]
  · simp [impactOf, resultField, TradePreview, previewLoop_total, Value.asMap, Value.asSlice?,
      GoMap.get, pure, horders]
  · simp [impactOf, resultField, TradePreview, Value.asMap, GoMap.get, pure]
  · simp [impactOf, resultField, TradePreview, Value.asMap, GoMap.get, pure]
  · rw [hfees]
    simp [impactOf, resultField, TradePreview, previewLoop_total, Value.asMap, Value.asSlice?,
      GoMap.get, pure, horders]
  · simp [impactOf, resultField, TradePreview, previewLoop_total, previewOrder, Value.asMap,
      Value.asSlice?, Value.asFloat, Value.asFloat?, GoMap.get, pure, Float64.add, Float64.mul,
      Float64.zero]
    norm_num
  · simp [impactOf, resultField, TradePreview, previewLoop_total, previewOrder, Value.asMap,
      Value.asSlice?, Value.asFloat, Value.asFloat?, GoMap.get, pure, Float64.add, Float64.mul,
      Float64.zero, Float64.lit]
    norm_num

/-- The witness of C11: the preview of one order of 10 at 5, in exact
arithmetic. -/
theorem preview_impact_witness :
    GoMap.get sampleArgs "orders"
      = some (Value.arr [Value.obj [("qty", Value.num (10 : ℚ)),
          ("limit_price", Value.num 5), ("symbol", Value.str "AAPL")]])
    ∧ Float64.add (Float64.lit 100 2) (Float64.add (Float64.lit 46 2) (Float64.lit 1 2))
        = (Float64.lit 147 2 : ℚ)
    ∧ (impactOf (TradePreview ⟨none⟩ sampleArgs : Id (Outcome ℚ))).get "commission"
        = some (Value.num (Float64.lit 100 2)) :=
  ⟨rfl, by simp [Float64.add, Float64.lit]; norm_num,
    (preview_impact ⟨none⟩ sampleArgs
      [Value.obj [("qty", Value.num (10 : ℚ)), ("limit_price", Value.num 5),
        ("symbol", Value.str "AAPL")]] rfl
      (by simp [Float64.add, Float64.lit]; norm_num)).2.2.1⟩

/-! ### The market-data snapshot -/

/-- After the loop of `DataSnapshot`, a key reads as the stub quote when it is
the non-empty string of some element, and as it read before otherwise. -/
theorem snapshotLoop_get {F : Type} [Float64 F] (now : String) (l : List (Value F))
    (acc : GoMap (Value F)) (k : String) :
    (l.foldl
        (fun (quotes : GoMap (Value F)) s =>
          if Value.asString (some s) = "" then quotes
          else quotes.set (Value.asString (some s)) (stubQuote now)) acc).get k
      = if k ≠ "" ∧ ∃ s ∈ l, Value.asString (some s) = k then some (stubQuote now)
        else acc.get k := by
  induction l generalizing acc with
  | nil => simp
  | cons x xs ih =>
    rw [List.foldl_cons, ih]
    clear ih
    simp only [List.mem_cons, exists_eq_or_imp]
    generalize Value.asString (some x) = a
    by_cases hk : k = "" <;> by_cases ha : a = "" <;> by_cases hak : a = k <;>
      by_cases he : ∃ s ∈ xs, Value.asString (some s) = k <;>
      simp_all [GoMap.get_set_self, GoMap.get_set_other]

/-- C12, as stated, fails: for the symbols `[""]` the empty string is among
the symbols given, and the quotes hold no entry for it. -/
theorem snapshot_skips_empty_symbol :
    GoMap.get ([("symbols", Value.arr [Value.str ""])] : GoMap (Value ℚ)) "symbols"
      = some (Value.arr ([""].map Value.str))
    ∧ "" ∈ [""]
    ∧ (quotesOf (DataSnapshot "2025-01-01T00:00:00Z" ⟨none⟩
          [("symbols", Value.arr [Value.str ""])] : Id (Outcome ℚ))).get "" = none :=
  ⟨rfl, List.mem_singleton.2 rfl, rfl⟩

/-- C12, amended: for a sequence of symbol strings passed as `symbols`, the
snapshot returns no error and a `quotes` map whose keys are exactly the
non-empty symbols given; every quote in it is the map of a `bid`, an `ask`, a
`mid` and, under the key `ts`, the timestamp of the call. -/
theorem snapshot_quotes {F : Type} [Float64 F] (now : String) (ctx : Context)
    (args : GoMap (Value F)) (symbols : List String)
    (hsym : args.get "symbols" = some (Value.arr (symbols.map Value.str))) :
    (DataSnapshot now ctx args : Id (Outcome F)).2 = none
    ∧ resultField (DataSnapshot now ctx args : Id (Outcome F)) "quotes"
        = some (Value.obj (quotesOf (DataSnapshot now ctx args : Id (Outcome F))))
    ∧ (∀ k, ((quotesOf (DataSnapshot now ctx args : Id (Outcome F))).get k).isSome
          ↔ k ∈ symbols ∧ k ≠ "")
    ∧ ∀ k q, (quotesOf (DataSnapshot now ctx args : Id (Outcome F))).get k = some q →
        ∃ bid ask mid : F,
          q = Value.obj [("bid", Value.num bid), ("ask", Value.num ask),
                         ("mid", Value.num mid), ("ts", Value.str now)] := by
  have hq : quotesOf (DataSnapshot now ctx args : Id (Outcome F))
      = snapshotLoop now (symbols.map Value.str) := by
    simp [quotesOf, resultField, DataSnapshot, Value.asMap, Value.asSlice?, GoMap.get, pure,
      hsym]
  have hget : ∀ k, (snapshotLoop now (symbols.map (Value.str : String → Value F))).get k
      = if k ≠ "" ∧ k ∈ symbols then some (stubQuote now) else none := by
    intro k
    unfold snapshotLoop
    rw [snapshotLoop_get]
    simp [Value.asString, GoMap.get]
  refine ⟨?_, ?_, ?_, ?_⟩
  · simp [DataSnapshot, Value.asSlice?, pure, hsym]
  · rw [hq]
    simp [resultField, DataSnapshot, Value.asMap, Value.asSlice?, GoMap.get, pure, hsym]
  · intro k
    rw [hq, hget]
    by_cases h : k ≠ "" ∧ k ∈ symbols
    · simp [h]
    · rw [if_neg h]
      simp only [Option.isSome_none, Bool.false_eq_true, false_iff]
      exact fun h' => h ⟨h'.2, h'.1⟩
  · intro k q hkq
    rw [hq, hget] at hkq
    by_cases h : k ≠ "" ∧ k ∈ symbols
    · rw [if_pos h] at hkq
      cases hkq
      exact ⟨_, _, _, rfl⟩
    · rw [if_neg h] at hkq
      cases hkq

/-- The witness of C12: the two symbols of the spec's example. -/
theorem snapshot_quotes_witness :
    GoMap.get ([("symbols", Value.arr [Value.str "BTC-USD", Value.str "ETH-USD"])] :
        GoMap (Value ℚ)) "symbols"
      = some (Value.arr (["BTC-USD", "ETH-USD"].map Value.str))
    ∧ ∀ k, ((quotesOf (DataSnapshot "2025-01-01T00:00:00Z" ⟨none⟩
          [("symbols", Value.arr [Value.str "BTC-USD", Value.str "ETH-USD"])] :
            Id (Outcome ℚ))).get k).isSome
        ↔ k ∈ ["BTC-USD", "ETH-USD"] ∧ k ≠ "" :=
  ⟨rfl, (snapshot_quotes "2025-01-01T00:00:00Z" ⟨none⟩
    [("symbols", Value.arr [Value.str "BTC-USD", Value.str "ETH-USD"])]
    ["BTC-USD", "ETH-USD"] rfl).2.2.1⟩

/-- C13: when `symbols` is absent or is not a sequence, the snapshot returns,
in any monad and so without any effect, no error and the result
`{quotes: {}}` with an empty quotes map. -/
theorem snapshot_tolerates_bad_symbols {m : Type → Type} {F : Type} [Monad m] [Float64 F]
    (now : String) (ctx : Context) (args : GoMap (Value F))
    (hbad : ∀ xs, args.get "symbols" ≠ some (Value.arr xs)) :
    (DataSnapshot now ctx args : m (Outcome F))
      = pure (Value.obj [("quotes", Value.obj [])], none) := by
  unfold DataSnapshot
  cases hg : args.get "symbols" with
  | none => simp [Value.asSlice?]
  | some v =>
    cases v with
    | arr xs => exact absurd hg (hbad xs)
    | _ => simp [Value.asSlice?]

/-- The witness of C13: a nil argument map, and `symbols` given as a string. -/
theorem snapshot_tolerates_bad_symbols_witness :
    (∀ xs, GoMap.get ([] : GoMap (Value ℚ)) "symbols" ≠ some (Value.arr xs))
    ∧ (DataSnapshot "2025-01-01T00:00:00Z" ⟨none⟩ [] : Id (Outcome ℚ))
        = pure (Value.obj [("quotes", Value.obj [])], none)
    ∧ (∀ xs, GoMap.get ([("symbols", Value.str "AAPL")] : GoMap (Value ℚ)) "symbols"
        ≠ some (Value.arr xs))
    ∧ (DataSnapshot "2025-01-01T00:00:00Z" ⟨none⟩ [("symbols", Value.str "AAPL")] :
          Id (Outcome ℚ))
        = pure (Value.obj [("quotes", Value.obj [])], none) :=
  ⟨by simp [GoMap.get],
    snapshot_tolerates_bad_symbols "2025-01-01T00:00:00Z" ⟨none⟩ [] (by simp [GoMap.get]),
    by simp [GoMap.get],
    snapshot_tolerates_bad_symbols "2025-01-01T00:00:00Z" ⟨none⟩
      [("symbols", Value.str "AAPL")] (by simp [GoMap.get])⟩

/-! ### The stub trade placement -/

theorem digitChar_value : ∀ k, k < 10 → (Nat.digitChar k).toNat - 48 = k := by
  decide

theorem digitChar_not_minus : ∀ k, k < 10 → Nat.digitChar k ≠ '-' := by
  decide

/-- Reading back the digits `toDigitsCore` puts in front of `ds`. -/
theorem toDigitsCore_decode (fuel : Nat) :
    ∀ (n : Nat) (ds : List Char), n < fuel →
      (Nat.toDigitsCore 10 fuel n ds).foldl (fun acc c => acc * 10 + (c.toNat - 48)) 0
        = ds.foldl (fun acc c => acc * 10 + (c.toNat - 48)) n := by
  induction fuel with
  | zero => intro n ds h; omega
  | succ fuel ih =>
    intro n ds h
    simp only [Nat.toDigitsCore]
    by_cases h0 : n / 10 = 0
    · have hn : n % 10 = n := by omega
      rw [if_pos h0, List.foldl_cons, digitChar_value (n % 10) (Nat.mod_lt _ (by omega)), hn,
        Nat.zero_mul, Nat.zero_add]
    · have hlt : n / 10 < fuel := by omega
      rw [if_neg h0, ih (n / 10) _ hlt, List.foldl_cons,
        digitChar_value (n % 10) (Nat.mod_lt _ (by omega))]
      congr 1
      omega

/-- No digit `toDigitsCore` writes is a minus sign. -/
theorem toDigitsCore_no_minus (fuel : Nat) :
    ∀ (n : Nat) (ds : List Char), '-' ∉ ds → '-' ∉ Nat.toDigitsCore 10 fuel n ds := by
  induction fuel with
  | zero => intro n ds h; simpa [Nat.toDigitsCore] using h
  | succ fuel ih =>
    intro n ds h
    have hcons : '-' ∉ Nat.digitChar (n % 10) :: ds := by
      simp only [List.mem_cons, not_or]
      exact ⟨fun hc => digitChar_not_minus _ (Nat.mod_lt _ (by omega)) hc.symm, h⟩
    simp only [Nat.toDigitsCore]
    by_cases h0 : n / 10 = 0
    · simpa [h0] using hcons
    · rw [if_neg h0]
      exact ih _ _ hcons

/-- The decimal digits of a natural number read back as the number. -/
theorem decodeDigits_repr (n : Nat) : decodeDigits (Nat.repr n).data = n := by
  simp only [decodeDigits, Nat.repr, Nat.toDigits, List.asString]
  rw [toDigitsCore_decode (n + 1) n [] (by omega)]
  rfl

/-- The function `toString` on `Int`, which is what `%d` prints, is injective. -/
theorem toString_int_injective (a b : Int) (h : toString a = toString b) : a = b := by
  have hnat : ∀ x y : Nat, Nat.repr x = Nat.repr y → x = y := by
    intro x y hxy
    rw [← decodeDigits_repr x, ← decodeDigits_repr y, hxy]
  have hminus : ∀ x y : Nat, Nat.repr x ≠ "-" ++ Nat.repr y := by
    intro x y hxy
    have hmem : '-' ∈ (Nat.repr x).data := by
      rw [hxy]
      simp
    exact toDigitsCore_no_minus (x + 1) x [] (by simp) (by
      simpa [Nat.repr, Nat.toDigits, List.asString] using hmem)
  cases a with
  | ofNat x =>
    cases b with
    | ofNat y => exact congrArg Int.ofNat (hnat x y h)
    | negSucc y => exact absurd h (hminus x (y + 1))
  | negSucc x =>
    cases b with
    | ofNat y => exact absurd h.symm (hminus y (x + 1))
    | negSucc y =>
      have h1 : ("-" ++ Nat.repr (x + 1)).data = ("-" ++ Nat.repr (y + 1)).data :=
        congrArg String.data h
      simp only [String.data_append, List.append_cancel_left_eq] at h1
      have h2 := hnat (x + 1) (y + 1) (String.ext h1)
      have h3 : x = y := by omega
      rw [h3]

/-- C14, as stated, fails: two calls that read the same value of the clock
return the same `broker_order_id`. -/
theorem placement_ids_collide_on_equal_clock :
    resultField (TradePlaceOrder 1700000000000000000 "2023-11-14T22:13:20Z" ⟨none⟩
        [("order", Value.obj [("symbol", Value.str "AAPL")])] : Id (Outcome ℚ))
        "broker_order_id"
      = resultField (TradePlaceOrder 1700000000000000000 "2023-11-14T22:13:20Z" ⟨none⟩
        [("order", Value.obj [("symbol", Value.str "MSFT")])] : Id (Outcome ℚ))
        "broker_order_id" :=
  rfl

/-- C14, amended: every call of the stub placement returns no error, the
status `ACCEPTED`, an echo of its `order` argument when that is a map (the
empty map otherwise), and the `broker_order_id` made of `SNAP-` and the
nanosecond reading of the clock the call took. Two calls return different
ids exactly when their clock readings differ. -/
theorem placement_ids_follow_clock {F : Type} (n₁ n₂ : Int) (stamp₁ stamp₂ : String)
    (ctx₁ ctx₂ : Context) (args₁ args₂ : GoMap (Value F)) :
    (∀ (n : Int) (stamp : String) (ctx : Context) (args : GoMap (Value F)),
        (TradePlaceOrder n stamp ctx args : Id (Outcome F)).2 = none
        ∧ resultField (TradePlaceOrder n stamp ctx args : Id (Outcome F)) "status"
            = some (Value.str "ACCEPTED")
        ∧ resultField (TradePlaceOrder n stamp ctx args : Id (Outcome F)) "broker_order_id"
            = some (Value.str ("SNAP-" ++ toString n))
        ∧ resultField (TradePlaceOrder n stamp ctx args : Id (Outcome F)) "echo"
            = some (Value.obj (Value.asMap (args.get "order")))
        ∧ ∀ o, args.get "order" = some (Value.obj o) →
            resultField (TradePlaceOrder n stamp ctx args : Id (Outcome F)) "echo"
              = some (Value.obj o))
    ∧ (resultField (TradePlaceOrder n₁ stamp₁ ctx₁ args₁ : Id (Outcome F)) "broker_order_id"
        ≠ resultField (TradePlaceOrder n₂ stamp₂ ctx₂ args₂ : Id (Outcome F)) "broker_order_id"
        ↔ n₁ ≠ n₂) := by
  have hid : ∀ (n : Int) (stamp : String) (ctx : Context) (args : GoMap (Value F)),
      resultField (TradePlaceOrder n stamp ctx args : Id (Outcome F)) "broker_order_id"
        = some (Value.str ("SNAP-" ++ toString n)) := by
    intro n stamp ctx args
    simp [resultField, TradePlaceOrder, Value.asMap, GoMap.get, pure]
  refine ⟨?_, ?_⟩
  · intro n stamp ctx args
    refine ⟨rfl, ?_, hid n stamp ctx args, ?_, ?_⟩
    · simp [resultField, TradePlaceOrder, Value.asMap, GoMap.get, pure]
    · simp [resultField, TradePlaceOrder, Value.asMap, GoMap.get, pure]
    · intro o ho
      simp [resultField, TradePlaceOrder, Value.asMap, GoMap.get, pure, ho]
  · rw [hid, hid]
    constructor
    · intro hne heq
      exact hne (by rw [heq])
    · intro hne heq
      apply hne
      simp only [Option.some.injEq, Value.str.injEq] at heq
      have h1 := congrArg String.data heq
      simp only [String.data_append, List.append_cancel_left_eq] at h1
      exact toString_int_injective _ _ (String.ext h1)

end Skybit
